import Mathlib

/-!
Shallow embedding of the drift-detection core of the bitcoin-ml-pipeline
repository (src/src/data_drift_detection.py) and proofs of the specified
properties of the DriftDetectionEngine and DriftReport.

Modelling conventions:
* pandas DataFrames are association lists of named columns; a column is
  either numeric (float64/int64, modelled as rationals) or categorical
  (object/category dtype, modelled as strings).
* Python floats are modelled as rationals; float-formatting and rounding
  details are abstracted (round(x, 6) becomes nearest-1e-6 rational
  rounding).
* External SciPy routines whose numerics the engine merely forwards
  (ks_2samp, chi2_contingency) and np.log are oracle parameters bundled
  in the Oracles structure; theorems quantify over them.  numpy histogram
  binning and the one-dimensional equal-weight Wasserstein distance are
  embedded concretely because claims speak about their algorithms.
* numpy's ambient global random state is threaded explicitly as an RNG
  value (a stream of draws); np.random.choice without replacement is a
  Fisher-Yates selection driven by that stream.
* Python exceptions are modelled with Except PyErr.
-/

namespace DriftDetection

/-- A pandas column: float64/int64 dtype holds rationals, object/category
dtype holds strings. -/
inductive Col where
  | numeric (vals : List ℚ)
  | categorical (vals : List String)
deriving DecidableEq

/-- Number of rows of a column. -/
def Col.length : Col → Nat
  | .numeric vs => vs.length
  | .categorical vs => vs.length

/-- dtype in ['float64', 'int64']. -/
def Col.isNumeric : Col → Bool
  | .numeric _ => true
  | .categorical _ => false

/-- Category labels of a column as used by value_counts; numeric values are
rendered to their print form (a current-snapshot numeric column compared
against a categorical reference never matches any reference category, which
is what this injection preserves). -/
def Col.catKeys : Col → List String
  | .categorical vs => vs
  | .numeric vs => vs.map (fun q => reprStr q)

/-- A pandas DataFrame: ordered named columns. -/
structure DataFrame where
  cols : List (String × Col)
deriving DecidableEq

/-- Association-list lookup with decidable string equality (Python dict /
DataFrame column access). -/
def alookup (k : String) : List (String × α) → Option α
  | [] => none
  | (k', v) :: rest => if k' = k then some v else alookup k rest

/-- Python dict assignment d[k] = v: updates in place if the key exists,
otherwise appends (insertion order preserved). -/
def dictSet (d : List (String × α)) (k : String) (v : α) : List (String × α) :=
  if (alookup k d).isSome then
    d.map (fun p => if p.1 = k then (k, v) else p)
  else d ++ [(k, v)]

def DataFrame.lookup (df : DataFrame) (c : String) : Option Col :=
  alookup c df.cols

def DataFrame.colNames (df : DataFrame) : List String :=
  df.cols.map Prod.fst

/-- len(df): number of rows (columns share one length). -/
def DataFrame.nRows (df : DataFrame) : Nat :=
  match df.cols with
  | [] => 0
  | (_, c) :: _ => c.length

/-- Helper for distinctList: keep the first occurrence of each value. -/
def distinctAux (seen : List String) : List String → List String
  | [] => []
  | x :: xs =>
      if x ∈ seen then distinctAux seen xs
      else x :: distinctAux (seen ++ [x]) xs

/-- First-occurrence list of distinct values. -/
def distinctList (l : List String) : List String := distinctAux [] l

/-- value_counts as category-to-count pairs (pandas orders by descending
count; only the multiset of counts is consumed downstream, so
first-occurrence order is used). -/
def valueCounts (vals : List String) : List (String × Nat) :=
  (distinctList vals).map (fun v => (v, vals.count v))

def sortQ (l : List ℚ) : List ℚ :=
  l.insertionSort (· ≤ ·)

/-- Series.min (0 on an empty series, where pandas yields NaN). -/
def listMin (l : List ℚ) : ℚ := l.foldl min (l.headD 0)

/-- Series.max (0 on an empty series, where pandas yields NaN). -/
def listMax (l : List ℚ) : ℚ := l.foldl max (l.headD 0)

/-- Series.mean (0 on an empty series, where pandas yields NaN). -/
def meanQ (l : List ℚ) : ℚ := l.sum / l.length

/-- Series.quantile with pandas' default linear interpolation. -/
def quantileQ (l : List ℚ) (q : ℚ) : ℚ :=
  let s := sortQ l
  if s.length = 0 then 0 else
    let pos : ℚ := q * ((s.length : ℚ) - 1)
    let i : Nat := (⌊pos⌋).toNat
    let lo := s.getD i 0
    let hi := s.getD (i + 1) lo
    lo + (pos - (i : ℚ)) * (hi - lo)

/-- Series.mode()[0]: the smallest among the values of maximal count
(pandas sorts the modes ascending), none on an empty series. -/
def modeCat (vals : List String) : Option String :=
  let vc := valueCounts vals
  let m := (vc.map Prod.snd).foldl max 0
  ((vc.filter (fun p => p.2 = m)).map Prod.fst).min?

/-- One entry of the engine's reference_stats dict
(_calculate_statistics).  The std field is omitted: it is the square root
of a rational and no engine code path ever reads it; all consumed fields
are retained. -/
inductive ColStats where
  | numericStats (mean min max median q25 q75 : ℚ) (distribution : List ℚ)
  | catStats (unique_values : Nat) (mode : Option String)
      (distribution : List (String × Nat))
deriving DecidableEq

/-- The statistics recorded for one column by _calculate_statistics. -/
def statsOf : Col → ColStats
  | .numeric vs =>
      .numericStats (meanQ vs) (listMin vs) (listMax vs)
        (quantileQ vs (1/2)) (quantileQ vs (1/4)) (quantileQ vs (3/4)) vs
  | .categorical vs =>
      .catStats (distinctList vs).length (modeCat vs) (valueCounts vs)

/-- DriftDetectionEngine._calculate_statistics. -/
def calculateStatistics (df : DataFrame) : List (String × ColStats) :=
  df.cols.map (fun p => (p.1, statsOf p.2))

/-- Python exceptions reachable from the engine's test methods. -/
inductive PyErr where
  | keyError
  | typeError
deriving DecidableEq

/-- The ambient numpy global random state, as the stream of draws it will
produce. -/
abbrev RNG := List Nat

/-- Remove and return the element at an index. -/
def takeAt (xs : List ℚ) (i : Nat) : ℚ × List ℚ :=
  (xs.getD i 0, xs.take i ++ xs.drop (i + 1))

/-- np.random.choice(xs, k, replace=False): Fisher-Yates selection of k
elements without replacement, driven by the global stream. -/
def choiceWR : List ℚ → Nat → RNG → List ℚ × RNG
  | _, 0, g => ([], g)
  | xs, Nat.succ k, g =>
      let r := g.headD 0
      let picked := takeAt xs (r % xs.length)
      let rec' := choiceWR picked.2 k g.tail
      (picked.1 :: rec'.1, rec'.2)

/-- scipy.stats.wasserstein_distance for two equal-length equal-weight
samples (the only case the engine produces): mean absolute difference of
the sorted samples. -/
def scipyWasserstein (xs ys : List ℚ) : ℚ :=
  ((List.zipWith (fun a b => |a - b|) (sortQ xs) (sortQ ys)).sum) / xs.length

/-- External statistical routines the engine forwards to: scipy's
ks_2samp and chi2_contingency (on a per-category table of
(reference count, current count) pairs; Except models the ValueError a
degenerate table raises) and np.log. -/
structure Oracles where
  ks2samp : List ℚ → List ℚ → ℚ × ℚ
  chi2Contingency : List (Nat × Nat) → Except Unit (ℚ × ℚ)
  npLog : ℚ → ℚ

mutual

/-- A JSON value (the shape of to_dict output and of json.dumps input). -/
inductive JVal where
  | null
  | jbool (b : Bool)
  | jnum (q : ℚ)
  | jstr (s : String)
  | jarr (xs : JArr)
  | jobj (kvs : JObj)

/-- A JSON array, as its own inductive for clean mutual recursion. -/
inductive JArr where
  | nil
  | cons (hd : JVal) (tl : JArr)

/-- A JSON object: ordered key/value pairs. -/
inductive JObj where
  | nil
  | cons (key : String) (val : JVal) (tl : JObj)

end

def arrOfList (l : List JVal) : JArr :=
  l.foldr (fun v acc => .cons v acc) .nil

def objOfList (l : List (String × JVal)) : JObj :=
  l.foldr (fun p acc => .cons p.1 p.2 acc) .nil

/-- Mapping lookup on a parsed JSON object. -/
def JObj.find (k : String) : JObj → Option JVal
  | .nil => none
  | .cons k' v tl => if k' = k then some v else JObj.find k tl

/-- round(x, 6): nearest rational with denominator 10^6 (the banker's
tie-break of Python float rounding is abstracted to round-half-up). -/
def round6 (q : ℚ) : ℚ := (round (q * 1000000) : ℤ) / 1000000

def interp (drift : Bool) : String := if drift then "DRIFT" else "NO_DRIFT"

structure KSEntry where
  statistic : ℚ
  p_value : ℚ
  drift_detected : Bool
  interpretation : String
deriving DecidableEq

structure WSEntry where
  distance : ℚ
  drift_detected : Bool
  interpretation : String
deriving DecidableEq

structure PSIEntry where
  psi : ℚ
  drift_detected : Bool
  interpretation : String
  severity : String
deriving DecidableEq

structure ChiEntry where
  statistic : ℚ
  p_value : ℚ
  drift_detected : Bool
  interpretation : String
deriving DecidableEq

/-- DriftReport: the state mutated by the add_* methods.  The two
datetime.now() reads (current_period at detect_drift, timestamp at
construction) are supplied by the caller as opaque strings. -/
structure DriftReport where
  reference_period : String
  current_period : String
  reference_size : Nat
  current_size : Nat
  timestamp : String
  ks_tests : List (String × KSEntry)
  wasserstein_tests : List (String × WSEntry)
  psi_tests : List (String × PSIEntry)
  chi_square_tests : List (String × ChiEntry)
  missing_columns : List String
  drift_detected : Bool
  overall_severity : String
deriving DecidableEq

/-- DriftReport.__init__. -/
def DriftReport.init (reference_period current_period : String)
    (reference_size current_size : Nat) (timestamp : String) : DriftReport :=
  ⟨reference_period, current_period, reference_size, current_size, timestamp,
    [], [], [], [], [], false, "LOW"⟩

/-- DriftReport.add_ks_test. -/
def DriftReport.add_ks_test (r : DriftReport) (column : String)
    (statistic p_value : ℚ) (drift : Bool) : DriftReport :=
  let r' := { r with ks_tests := (dictSet r.ks_tests column
      ⟨round6 statistic, round6 p_value, drift, interp drift⟩) }
  if drift then { r' with drift_detected := true } else r'

/-- DriftReport.add_wasserstein. -/
def DriftReport.add_wasserstein (r : DriftReport) (column : String)
    (distance : ℚ) (drift : Bool) : DriftReport :=
  let r' := { r with wasserstein_tests := (dictSet r.wasserstein_tests column
      ⟨round6 distance, drift, interp drift⟩) }
  if drift then { r' with drift_detected := true } else r'

/-- DriftReport._get_psi_severity. -/
def getPsiSeverity (psi : ℚ) : String :=
  if psi < 1/10 then "LOW" else if psi < 1/4 then "MEDIUM" else "HIGH"

/-- DriftReport.add_psi.  Note the unconditional assignment
overall_severity = "HIGH" on a flagged drift. -/
def DriftReport.add_psi (r : DriftReport) (column : String)
    (psi_value : ℚ) (drift : Bool) : DriftReport :=
  let r' := { r with psi_tests := (dictSet r.psi_tests column
      ⟨round6 psi_value, drift, interp drift, getPsiSeverity psi_value⟩) }
  if drift then { r' with drift_detected := true, overall_severity := "HIGH" }
  else r'

/-- DriftReport.add_chi_square. -/
def DriftReport.add_chi_square (r : DriftReport) (column : String)
    (statistic p_value : ℚ) (drift : Bool) : DriftReport :=
  let r' := { r with chi_square_tests := (dictSet r.chi_square_tests column
      ⟨round6 statistic, round6 p_value, drift, interp drift⟩) }
  if drift then { r' with drift_detected := true } else r'

/-- DriftReport.add_missing_column. -/
def DriftReport.add_missing_column (r : DriftReport) (column : String) :
    DriftReport :=
  { r with
    missing_columns := r.missing_columns ++ [column],
    drift_detected := true,
    overall_severity := "CRITICAL" }

def JVal.ofQ (q : ℚ) : JVal := .jnum q

def ksEntryDict (e : KSEntry) : JVal :=
  .jobj (objOfList [("statistic", .jnum e.statistic),
    ("p_value", .jnum e.p_value),
    ("drift_detected", .jbool e.drift_detected),
    ("interpretation", .jstr e.interpretation)])

def wsEntryDict (e : WSEntry) : JVal :=
  .jobj (objOfList [("distance", .jnum e.distance),
    ("drift_detected", .jbool e.drift_detected),
    ("interpretation", .jstr e.interpretation)])

def psiEntryDict (e : PSIEntry) : JVal :=
  .jobj (objOfList [("psi", .jnum e.psi),
    ("drift_detected", .jbool e.drift_detected),
    ("interpretation", .jstr e.interpretation),
    ("severity", .jstr e.severity)])

def chiEntryDict (e : ChiEntry) : JVal :=
  .jobj (objOfList [("statistic", .jnum e.statistic),
    ("p_value", .jnum e.p_value),
    ("drift_detected", .jbool e.drift_detected),
    ("interpretation", .jstr e.interpretation)])

/-- DriftReport.to_dict. -/
def DriftReport.to_dict (r : DriftReport) : JVal :=
  .jobj (objOfList [
    ("timestamp", .jstr r.timestamp),
    ("reference_period", .jstr r.reference_period),
    ("current_period", .jstr r.current_period),
    ("reference_size", .jnum r.reference_size),
    ("current_size", .jnum r.current_size),
    ("drift_detected", .jbool r.drift_detected),
    ("overall_severity", .jstr r.overall_severity),
    ("ks_tests",
      .jobj (objOfList (r.ks_tests.map (fun p => (p.1, ksEntryDict p.2))))),
    ("wasserstein_tests",
      .jobj (objOfList
        (r.wasserstein_tests.map (fun p => (p.1, wsEntryDict p.2))))),
    ("psi_tests",
      .jobj (objOfList (r.psi_tests.map (fun p => (p.1, psiEntryDict p.2))))),
    ("chi_square_tests",
      .jobj (objOfList
        (r.chi_square_tests.map (fun p => (p.1, chiEntryDict p.2))))),
    ("missing_columns",
      .jarr (arrOfList (r.missing_columns.map (fun c => .jstr c))))])

/-- DriftDetectionEngine state. -/
structure DriftDetectionEngine where
  reference_data : DataFrame
  threshold_ks : ℚ
  threshold_psi : ℚ
  threshold_wasserstein : ℚ
  reference_period : String
  reference_stats : List (String × ColStats)
  drift_history : List JVal

def defaultThresholdKs : ℚ := 1/20
def defaultThresholdPsi : ℚ := 1/4
def defaultThresholdWasserstein : ℚ := 1/10

/-- DriftDetectionEngine.__init__: stores the inputs, computes the
reference statistics once, starts an empty history.  No validation of any
kind is performed. -/
def DriftDetectionEngine.init (reference_data : DataFrame)
    (threshold_ks threshold_psi threshold_wasserstein : ℚ)
    (reference_period : String) : DriftDetectionEngine :=
  ⟨reference_data, threshold_ks, threshold_psi, threshold_wasserstein,
    reference_period, calculateStatistics reference_data, []⟩

/-- self.reference_stats[column]['distribution'] for a continuous column:
a KeyError if the column is absent from the stats dict, and a downstream
type error if the stats entry is categorical (its distribution is a dict,
which the numeric tests cannot consume). -/
def getNumDist (stats : List (String × ColStats)) (column : String) :
    Except PyErr (List ℚ) :=
  match alookup column stats with
  | none => .error .keyError
  | some (.numericStats _ _ _ _ _ _ dist) => .ok dist
  | some (.catStats _ _ _) => .error .typeError

/-- current_data[column].values as a numeric array: KeyError if absent,
type error if the current column is not numeric (the original's behavior
on such mixed typing is undefined per the spec's design notes). -/
def getCurNum (current_data : DataFrame) (column : String) :
    Except PyErr (List ℚ) :=
  match current_data.lookup column with
  | none => .error .keyError
  | some (.numeric vs) => .ok vs
  | some (.categorical _) => .error .typeError

/-- DriftDetectionEngine.ks_test. -/
def DriftDetectionEngine.ks_test (e : DriftDetectionEngine) (O : Oracles)
    (current_data : DataFrame) (column : String) :
    Except PyErr (Option (ℚ × ℚ)) :=
  match e.reference_data.lookup column with
  | none => .ok none
  | some (.categorical _) => .ok none
  | some (.numeric _) =>
    match getNumDist e.reference_stats column with
    | .error err => .error err
    | .ok reference_dist =>
      match getCurNum current_data column with
      | .error err => .error err
      | .ok current_dist => .ok (some (O.ks2samp reference_dist current_dist))

/-- DriftDetectionEngine.wasserstein_distance: subsamples both sides to the
smaller length via the ambient global random state, then takes the
distance. -/
def DriftDetectionEngine.wasserstein_distance (e : DriftDetectionEngine)
    (current_data : DataFrame) (column : String) (g : RNG) :
    Except PyErr (Option ℚ) × RNG :=
  match e.reference_data.lookup column with
  | none => (.ok none, g)
  | some (.categorical _) => (.ok none, g)
  | some (.numeric _) =>
    match getNumDist e.reference_stats column with
    | .error err => (.error err, g)
    | .ok reference_dist =>
      match getCurNum current_data column with
      | .error err => (.error err, g)
      | .ok current_dist =>
        let min_len := min reference_dist.length current_dist.length
        let refPick := choiceWR reference_dist min_len g
        let curPick := choiceWR current_dist min_len refPick.2
        (.ok (some (scipyWasserstein refPick.1 curPick.1)), curPick.2)

def psiSmoothing : ℚ := 1/10000000000

/-- np.histogram_bin_edges(vals, bins=10): 11 equal-width edges spanning
min..max, widened by 1/2 on each side when all values coincide, and
defaulting to the range 0..1 on empty input. -/
def binEdges10 (vals : List ℚ) : List ℚ :=
  let lo := if vals.isEmpty then 0 else listMin vals
  let hi := if vals.isEmpty then 1 else listMax vals
  let lo' := if lo = hi then lo - 1/2 else lo
  let hi' := if lo = hi then hi + 1/2 else hi
  (List.range 11).map (fun (i : Nat) => lo' + (i : ℚ) * (hi' - lo') / 10)

/-- np.histogram(vals, bins=edges)[0]: per-bin counts, bins half-open
except the last, which includes its right edge. -/
def histCounts (vals : List ℚ) (edges : List ℚ) : List Nat :=
  (List.range 10).map (fun i =>
    let lo := edges.getD i 0
    let hi := edges.getD (i + 1) 0
    if i = 9 then vals.countP (fun x => decide (lo ≤ x ∧ x ≤ hi))
    else vals.countP (fun x => decide (lo ≤ x ∧ x < hi)))

/-- The PSI computation of population_stability_index (given np.log). -/
def psiCalc (log : ℚ → ℚ) (reference current : List ℚ) : ℚ :=
  let edges := binEdges10 (reference ++ current)
  let refPct := (histCounts reference edges).map
    (fun (c : Nat) => (c : ℚ) / reference.length)
  let curPct := (histCounts current edges).map
    (fun (c : Nat) => (c : ℚ) / current.length)
  ((curPct.zip refPct).map (fun p =>
    (p.1 - p.2) * log ((p.1 + psiSmoothing) / (p.2 + psiSmoothing)))).sum

/-- DriftDetectionEngine.population_stability_index. -/
def DriftDetectionEngine.population_stability_index
    (e : DriftDetectionEngine) (O : Oracles) (current_data : DataFrame)
    (column : String) : Except PyErr (Option ℚ) :=
  match e.reference_data.lookup column with
  | none => .ok none
  | some (.categorical _) => .ok none
  | some (.numeric _) =>
    match getNumDist e.reference_stats column with
    | .error err => .error err
    | .ok reference =>
      match getCurNum current_data column with
      | .error err => .error err
      | .ok current => .ok (some (psiCalc O.npLog reference current))

/-- The aligned 2xK contingency table: all categories of either side (set
union; chi-square is invariant under category permutation, so reference
first-occurrence order followed by new current categories is used), with
zero fill for a side where a category is absent. -/
def contingencyTable (refVals curVals : List String) : List (Nat × Nat) :=
  let refCats := distinctList refVals
  let allCats := refCats ++ (distinctList curVals).filter
    (fun c => ¬ (c ∈ refCats))
  allCats.map (fun c => (refVals.count c, curVals.count c))

/-- DriftDetectionEngine.chi_square_test: the bare except around
chi2_contingency converts its failure into (None, None). -/
def DriftDetectionEngine.chi_square_test (e : DriftDetectionEngine)
    (O : Oracles) (current_data : DataFrame) (column : String) :
    Except PyErr (Option (ℚ × ℚ)) :=
  match e.reference_data.lookup column with
  | none => .ok none
  | some (.numeric _) => .ok none
  | some (.categorical refVals) =>
    match current_data.lookup column with
    | none => .error .keyError
    | some curCol =>
      match O.chi2Contingency (contingencyTable refVals curCol.catKeys) with
      | .ok sp => .ok (some sp)
      | .error _ => .ok none

/-- The KS step of detect_drift's loop body: record the result when
non-null, flagging drift at p below threshold_ks. -/
def ksStep (O : Oracles) (e : DriftDetectionEngine) (current_data : DataFrame)
    (col : String) (report : DriftReport) : DriftReport :=
  match e.ks_test O current_data col with
  | .ok (some sp) =>
      report.add_ks_test col sp.1 sp.2 (decide (sp.2 < e.threshold_ks))
  | _ => report

/-- The Wasserstein step: record the result when non-null, flagging drift
at distance above threshold_wasserstein; advances the random state. -/
def wsStep (e : DriftDetectionEngine) (current_data : DataFrame)
    (col : String) (acc : DriftReport × RNG) : DriftReport × RNG :=
  match e.wasserstein_distance current_data col acc.2 with
  | (.ok (some d), g') =>
      (acc.1.add_wasserstein col d (decide (d > e.threshold_wasserstein)),
        g')
  | (_, g') => (acc.1, g')

/-- The PSI step: record the result when non-null, flagging drift at PSI
above threshold_psi. -/
def psiStep (O : Oracles) (e : DriftDetectionEngine)
    (current_data : DataFrame) (col : String) (report : DriftReport) :
    DriftReport :=
  match e.population_stability_index O current_data col with
  | .ok (some psi) => report.add_psi col psi (decide (psi > e.threshold_psi))
  | _ => report

/-- The chi-square step: record the result when non-null, flagging drift
at p below threshold_ks. -/
def chiStep (O : Oracles) (e : DriftDetectionEngine)
    (current_data : DataFrame) (col : String) (report : DriftReport) :
    DriftReport :=
  match e.chi_square_test O current_data col with
  | .ok (some sp) =>
      report.add_chi_square col sp.1 sp.2 (decide (sp.2 < e.threshold_ks))
  | _ => report

/-- The per-column body of detect_drift's loop: a missing column is
recorded and the column skipped; a numeric reference column runs KS,
Wasserstein, PSI in order; any other reference column runs chi-square. -/
def processColumn (O : Oracles) (e : DriftDetectionEngine)
    (current_data : DataFrame) (acc : DriftReport × RNG) (col : String) :
    DriftReport × RNG :=
  match current_data.lookup col with
  | none => (acc.1.add_missing_column col, acc.2)
  | some _ =>
    match e.reference_data.lookup col with
    | some (.numeric _) =>
        let a2 := wsStep e current_data col
          (ksStep O e current_data col acc.1, acc.2)
        (psiStep O e current_data col a2.1, a2.2)
    | _ => (chiStep O e current_data col acc.1, acc.2)

/-- DriftDetectionEngine.detect_drift: builds a fresh report over all
reference columns, appends its dict form to the history, returns it.  The
ambient random state is threaded; `now` stands for datetime.now(). -/
def DriftDetectionEngine.detect_drift (e : DriftDetectionEngine)
    (O : Oracles) (current_data : DataFrame) (now : String) (g : RNG) :
    DriftReport × DriftDetectionEngine × RNG :=
  let report0 := DriftReport.init e.reference_period now
    e.reference_data.nRows current_data.nRows now
  let done := e.reference_data.colNames.foldl
    (processColumn O e current_data) (report0, g)
  (done.1,
    { e with drift_history := e.drift_history ++ [done.1.to_dict] },
    done.2)

/-! Observation helpers used to state the report invariants. -/

def dictKeys (d : List (String × α)) : List String := d.map Prod.fst

def anyFlagBy (f : α → Bool) (d : List (String × α)) : Bool :=
  d.any (fun p => f p.2)

/-- True when some contained test result of the report carries
drift_detected = true. -/
def entriesFlag (r : DriftReport) : Bool :=
  anyFlagBy KSEntry.drift_detected r.ks_tests ||
  anyFlagBy WSEntry.drift_detected r.wasserstein_tests ||
  anyFlagBy PSIEntry.drift_detected r.psi_tests ||
  anyFlagBy ChiEntry.drift_detected r.chi_square_tests

/-- The drift_detected bookkeeping invariant of a report. -/
def FlagInv (r : DriftReport) : Prop :=
  r.drift_detected = true ↔ (entriesFlag r = true ∨ r.missing_columns ≠ [])

/-- Every column name keyed by some per-test collection of the report. -/
def reportKeys (r : DriftReport) : List String :=
  dictKeys r.ks_tests ++ dictKeys r.wasserstein_tests ++
  dictKeys r.psi_tests ++ dictKeys r.chi_square_tests

/-- Everything in a report except the Wasserstein results and the overall
drift flag (which depend on the ambient random state). -/
def nonWsView (r : DriftReport) :=
  (r.reference_period, r.current_period, r.reference_size, r.current_size,
    r.timestamp, r.ks_tests, r.psi_tests, r.chi_square_tests,
    r.missing_columns, r.overall_severity)

/-- Probability mass of bin i (of 10 equal-width bins of width w starting
at lo; the last bin closed on the right, matching the histogram
convention) for one sample, as the specification describes the PSI
binning. -/
def specBinPct (vals : List ℚ) (lo w : ℚ) (i : Nat) : ℚ :=
  let c := if i = 9 then
      vals.countP (fun x => decide (lo + 9 * w ≤ x ∧ x ≤ lo + 10 * w))
    else vals.countP (fun x =>
      decide (lo + (i : ℚ) * w ≤ x ∧ x < lo + ((i : ℚ) + 1) * w))
  (c : ℚ) / vals.length

/-- The PSI computation as the specification words it (the second
definition of a refinement pair): ten equal-width bins spanning the
combined min/max of both samples, per-bin counts divided by each sample's
length, and the smoothed log-weighted sum. -/
def psiSpecFormula (log : ℚ → ℚ) (reference current : List ℚ) : ℚ :=
  let lo := listMin (reference ++ current)
  let hi := listMax (reference ++ current)
  let w := (hi - lo) / 10
  ((List.range 10).map (fun i =>
    (specBinPct current lo w i - specBinPct reference lo w i) *
      log ((specBinPct current lo w i + psiSmoothing) /
        (specBinPct reference lo w i + psiSmoothing)))).sum

/-! json.dumps / json.loads: a character-level model of the subset of JSON
exercised by DriftReport.to_json (json.dumps(..., indent=2)) and of the
parser reading it back.  Braces are written via character codes. -/

def lbrace : Char := Char.ofNat 123

def rbrace : Char := Char.ofNat 125

def isWsChar (c : Char) : Bool :=
  c = ' ' || c = '\n' || c = '\t' || c = '\r'

def skipWs : List Char → List Char
  | [] => []
  | c :: cs => if isWsChar c then skipWs cs else c :: cs

def digitChar (n : Nat) : Char := Char.ofNat (48 + n)

def natDigitsAux : Nat → Nat → List Char
  | 0, _ => []
  | Nat.succ fuel, n =>
      if n < 10 then [digitChar n]
      else natDigitsAux fuel (n / 10) ++ [digitChar (n % 10)]

/-- Decimal digits of a natural number. -/
def natChars (n : Nat) : List Char := natDigitsAux (n + 1) n

/-- Decimal digits zero-padded on the left to width 6. -/
def natCharsPad6 (n : Nat) : List Char :=
  List.replicate (6 - (natChars n).length) (digitChar 0) ++ natChars n

/-- Rendering of a JSON number: integers bare, other decimals with six
fractional digits (Python's shortest-repr float formatting is abstracted;
the parsed value is identical). -/
def ratChars (q : ℚ) : List Char :=
  let sign : List Char := if q < 0 then ['-'] else []
  let a : ℚ := |q|
  let ip : Nat := (⌊a⌋).toNat
  if a.den = 1 then sign ++ natChars ip
  else sign ++ natChars ip ++
    '.' :: natCharsPad6 ((⌊(a - (ip : ℚ)) * 1000000⌋).toNat)

/-- JSON string escaping (quote and backslash; control and non-ASCII
characters are excluded by the safety predicate instead of modelling
ensure_ascii). -/
def escChar (c : Char) : List Char :=
  if c = '"' || c = '\\' then ['\\', c] else [c]

def strChars (s : String) : List Char :=
  '"' :: (s.data.foldr (fun c acc => escChar c ++ acc) ['"'])

/-- The newline-plus-indentation emitted by json.dumps(indent=2) before an
element at nesting depth d. -/
def nlIndent (d : Nat) : List Char := '\n' :: List.replicate (2 * d) ' '

mutual

def renderV : Nat → JVal → List Char
  | _, .null => ['n', 'u', 'l', 'l']
  | _, .jbool true => ['t', 'r', 'u', 'e']
  | _, .jbool false => ['f', 'a', 'l', 's', 'e']
  | _, .jnum q => ratChars q
  | _, .jstr s => strChars s
  | _, .jarr .nil => ['[', ']']
  | d, .jarr (.cons h t) =>
      '[' :: (renderItemsA (d + 1) (.cons h t) ++ nlIndent d ++ [']'])
  | _, .jobj .nil => [lbrace, rbrace]
  | d, .jobj (.cons k v t) =>
      lbrace :: (renderItemsO (d + 1) (.cons k v t) ++ nlIndent d ++ [rbrace])

def renderItemsA : Nat → JArr → List Char
  | _, .nil => []
  | d, .cons h t =>
      nlIndent d ++ renderV d h ++
        (match t with
          | .nil => []
          | .cons _ _ => ',' :: renderItemsA d t)

def renderItemsO : Nat → JObj → List Char
  | _, .nil => []
  | d, .cons k v t =>
      nlIndent d ++ strChars k ++ ':' :: ' ' ::
        (renderV d v ++
          (match t with
            | .nil => []
            | .cons _ _ _ => ',' :: renderItemsO d t))

end

/-- json.dumps(v, indent=2, default=str). -/
def jsonDumps (v : JVal) : String := String.mk (renderV 0 v)

/-- DriftReport.to_json. -/
def DriftReport.to_json (r : DriftReport) : String := jsonDumps r.to_dict

/-- The separator-plus-remaining-items part after an array element: empty
for the last element, comma then the rest otherwise. -/
def arrTail (d : Nat) : JArr → List Char
  | .nil => []
  | .cons h t => ',' :: renderItemsA d (.cons h t)

/-- The separator-plus-remaining-entries part after an object entry. -/
def objTail (d : Nat) : JObj → List Char
  | .nil => []
  | .cons k v t => ',' :: renderItemsO d (.cons k v t)

def parseDigitsA : List Char → Nat → Nat × List Char
  | [], acc => (acc, [])
  | c :: cs, acc =>
      if c.isDigit then parseDigitsA cs (acc * 10 + (c.toNat - 48))
      else (acc, c :: cs)

def parseFracA : List Char → ℚ → ℚ → ℚ × List Char
  | [], v, _ => (v, [])
  | c :: cs, v, s =>
      if c.isDigit then parseFracA cs (v + ((c.toNat - 48 : Nat) : ℚ) * s) (s / 10)
      else (v, c :: cs)

def parseNumPos : List Char → Option (ℚ × List Char)
  | [] => none
  | c :: cs =>
      if c.isDigit then
        let ip := parseDigitsA (c :: cs) 0
        match ip.2 with
        | c2 :: r2 =>
            if c2 = '.' then
              match r2 with
              | c3 :: _ =>
                  if c3.isDigit then
                    let fr := parseFracA r2 0 (1/10)
                    some ((ip.1 : ℚ) + fr.1, fr.2)
                  else none
              | [] => none
            else some ((ip.1 : ℚ), ip.2)
        | [] => some ((ip.1 : ℚ), [])
      else none

def parseNum : List Char → Option (ℚ × List Char)
  | [] => none
  | c :: cs =>
      if c = '-' then (parseNumPos cs).map (fun p => (-p.1, p.2))
      else parseNumPos (c :: cs)

def parseStrBody : List Char → Option (List Char × List Char)
  | [] => none
  | c :: cs =>
      if c = '"' then some ([], cs)
      else if c = '\\' then
        match cs with
        | c2 :: cs2 =>
            if c2 = '"' || c2 = '\\' then
              (parseStrBody cs2).map (fun p => (c2 :: p.1, p.2))
            else none
        | [] => none
      else (parseStrBody cs).map (fun p => (c :: p.1, p.2))
termination_by l => l.length
decreasing_by
  · simp +arith
  · simp +arith

mutual

def parseV : Nat → List Char → Option (JVal × List Char)
  | 0, _ => none
  | Nat.succ fuel, cs =>
    match skipWs cs with
    | [] => none
    | c :: rest =>
      if c.isDigit || c = '-' then
        (parseNum (c :: rest)).map (fun p => (.jnum p.1, p.2))
      else if c = 'n' then
        match rest with
        | 'u' :: 'l' :: 'l' :: r => some (.null, r)
        | _ => none
      else if c = 't' then
        match rest with
        | 'r' :: 'u' :: 'e' :: r => some (.jbool true, r)
        | _ => none
      else if c = 'f' then
        match rest with
        | 'a' :: 'l' :: 's' :: 'e' :: r => some (.jbool false, r)
        | _ => none
      else if c = '"' then
        (parseStrBody rest).map (fun p => (.jstr (String.mk p.1), p.2))
      else if c = '[' then
        match skipWs rest with
        | c2 :: r2 =>
            if c2 = ']' then some (.jarr .nil, r2)
            else (parseItemsA fuel rest).map (fun p => (.jarr p.1, p.2))
        | [] => none
      else if c = lbrace then
        match skipWs rest with
        | c2 :: r2 =>
            if c2 = rbrace then some (.jobj .nil, r2)
            else (parseItemsO fuel rest).map (fun p => (.jobj p.1, p.2))
        | [] => none
      else none

def parseItemsA : Nat → List Char → Option (JArr × List Char)
  | 0, _ => none
  | Nat.succ fuel, cs =>
    (parseV fuel cs).bind (fun pv =>
      match skipWs pv.2 with
      | c :: r2 =>
          if c = ',' then
            (parseItemsA fuel r2).map (fun pt => (.cons pv.1 pt.1, pt.2))
          else if c = ']' then some (.cons pv.1 .nil, r2)
          else none
      | [] => none)

def parseItemsO : Nat → List Char → Option (JObj × List Char)
  | 0, _ => none
  | Nat.succ fuel, cs =>
    match skipWs cs with
    | c :: rest =>
      if c = '"' then
        (parseStrBody rest).bind (fun pk =>
          match skipWs pk.2 with
          | c2 :: r3 =>
              if c2 = ':' then
                (parseV fuel r3).bind (fun pv =>
                  match skipWs pv.2 with
                  | c3 :: r5 =>
                      if c3 = ',' then
                        (parseItemsO fuel r5).map
                          (fun pt => (.cons (String.mk pk.1) pv.1 pt.1, pt.2))
                      else if c3 = rbrace then
                        some (.cons (String.mk pk.1) pv.1 .nil, r5)
                      else none
                  | [] => none)
              else none
          | [] => none)
      else none
    | [] => none

end

/-- json.loads: parse and require full consumption (up to whitespace). -/
def jsonLoads (s : String) : Option JVal :=
  match parseV (s.data.length + 1) s.data with
  | some pv => if skipWs pv.2 = [] then some pv.1 else none
  | none => none

mutual

/-- Fuel sufficient for parseV to read a rendering of the value back. -/
def needV : JVal → Nat
  | .jarr a => needA a + 1
  | .jobj o => needO o + 1
  | _ => 1

def needA : JArr → Nat
  | .nil => 0
  | .cons h t => max (needV h) (needA t) + 1

def needO : JObj → Nat
  | .nil => 0
  | .cons _ v t => max (needV v) (needO t) + 1

end

/-- Denominator dividing 10^6: the numbers to_dict produces (sizes and
round(x, 6) statistics), whose decimal rendering is exact. -/
def decimalDen (q : ℚ) : Bool := decide (q.den ∣ 1000000)

/-- Printable ASCII: the characters whose json.dumps rendering this model
covers (ensure_ascii escaping of control and non-ASCII characters is not
modelled). -/
def safeChar (c : Char) : Bool :=
  decide (32 ≤ c.toNat) && decide (c.toNat < 128)

def safeStr (s : String) : Bool := s.data.all safeChar

mutual

def goodV : JVal → Bool
  | .null => true
  | .jbool _ => true
  | .jnum q => decimalDen q
  | .jstr s => safeStr s
  | .jarr a => goodA a
  | .jobj o => goodO o

def goodA : JArr → Bool
  | .nil => true
  | .cons h t => goodV h && goodA t

def goodO : JObj → Bool
  | .nil => true
  | .cons k v t => safeStr k && goodV v && goodO t

end

/-- The continuation after a rendered number must not begin with a digit
or a decimal point (any JSON context satisfies this). -/
def numSafe : List Char → Bool
  | [] => true
  | c :: _ => !(c.isDigit || c = '.')

/-- A continuation that does not begin with a digit (where maximal-munch
digit reading stops). -/
def notDigitStart : List Char → Bool
  | [] => true
  | c :: _ => !c.isDigit

/-- Value of a most-significant-first digit string. -/
def digitsVal (ds : List Char) : Nat :=
  ds.foldl (fun a c => a * 10 + (c.toNat - 48)) 0

/-- Value of a fractional digit string: d0.d1d2... read after a decimal
point, scaled so that fval ds in [0, 10). -/
def fval : List Char → ℚ
  | [] => 0
  | c :: cs => ((c.toNat - 48 : Nat) : ℚ) + fval cs / 10

/-! Concrete fixtures for counterexamples and witnesses. -/

/-- A concrete oracle bundle for closed evaluations. -/
def oracle0 : Oracles :=
  ⟨fun _ _ => (0, 1), fun _ => .error (), fun _ => 0⟩

def dfC3ref : DataFrame := ⟨[("x", .numeric [0, 100])]⟩

def dfC3cur : DataFrame := ⟨[("x", .numeric [0])]⟩

def engC3 : DriftDetectionEngine :=
  .init dfC3ref defaultThresholdKs defaultThresholdPsi
    defaultThresholdWasserstein "ref"

def dfC1ref : DataFrame := ⟨[("a", .numeric [1]), ("b", .numeric [0, 1])]⟩

def dfC1cur : DataFrame := ⟨[("b", .numeric [0, 1])]⟩

/-- The failing engine for the severity claim: default thresholds except
threshold_psi = -1, under which the identical column b is PSI-flagged
(its PSI is exactly 0) whatever np.log is. -/
def engC1 : DriftDetectionEngine :=
  .init dfC1ref defaultThresholdKs (-1) defaultThresholdWasserstein "ref"

def dfC8ref : DataFrame :=
  ⟨[("t", .categorical ["up", "down"]), ("u", .categorical ["a"])]⟩

def dfC8cur : DataFrame :=
  ⟨[("t", .categorical ["up"]), ("u", .categorical ["a"])]⟩

def engC8 : DriftDetectionEngine :=
  .init dfC8ref defaultThresholdKs defaultThresholdPsi
    defaultThresholdWasserstein "ref"

/-- An oracle whose chi-square computation succeeds on the balanced
one-category table and fails (degenerate table) on every other. -/
def oracleC8 : Oracles :=
  ⟨fun _ _ => (0, 1),
    fun tab => if tab = [(1, 1)] then .ok (2, 1/2) else .error (),
    fun _ => 0⟩

def dfC7ref : DataFrame := ⟨[("p", .numeric [0, 1])]⟩

def dfC7cur : DataFrame := ⟨[("p", .numeric [2])]⟩

def engC7 : DriftDetectionEngine :=
  .init dfC7ref defaultThresholdKs defaultThresholdPsi
    defaultThresholdWasserstein "ref"

def emptyDF : DataFrame := ⟨[]⟩


/-! Association-list and dictSet lemmas. -/

theorem alookup_cons (k k1 : String) (v1 : α) (tl : List (String × α)) :
    alookup k ((k1, v1) :: tl) =
      if k1 = k then some v1 else alookup k tl := rfl

theorem dictSet_of_fresh {d : List (String × α)} {k : String} (v : α)
    (h : alookup k d = none) : dictSet d k v = d ++ [(k, v)] := by
  simp [dictSet, h]

theorem alookup_append_of_none {l1 l2 : List (String × α)} {k : String}
    (h : alookup k l1 = none) : alookup k (l1 ++ l2) = alookup k l2 := by
  induction l1 with
  | nil => rfl
  | cons hd tl ih =>
      obtain ⟨k1, v1⟩ := hd
      rw [List.cons_append, alookup_cons]
      rw [alookup_cons] at h
      by_cases hk : k1 = k
      · rw [if_pos hk] at h
        exact absurd h (by simp)
      · rw [if_neg hk] at h
        rw [if_neg hk]
        exact ih h

theorem alookup_append_of_some {l1 l2 : List (String × α)} {k : String}
    {v : α} (h : alookup k l1 = some v) :
    alookup k (l1 ++ l2) = some v := by
  induction l1 with
  | nil => simp [alookup] at h
  | cons hd tl ih =>
      obtain ⟨k1, v1⟩ := hd
      rw [List.cons_append, alookup_cons]
      rw [alookup_cons] at h
      by_cases hk : k1 = k
      · rw [if_pos hk] at h ⊢
        exact h
      · rw [if_neg hk] at h ⊢
        exact ih h

theorem alookup_eq_none_iff {l : List (String × α)} {k : String} :
    alookup k l = none ↔ k ∉ dictKeys l := by
  induction l with
  | nil => simp [alookup, dictKeys]
  | cons hd tl ih =>
      obtain ⟨k1, v1⟩ := hd
      rw [alookup_cons]
      by_cases hk : k1 = k
      · subst hk
        simp [dictKeys]
      · rw [if_neg hk]
        simp only [dictKeys, List.map_cons, List.mem_cons] at ih ⊢
        constructor
        · intro h hmem
          rcases hmem with h1 | h2
          · exact hk h1.symm
          · exact (ih.mp h) h2
        · intro h
          exact ih.mpr (fun hm => h (Or.inr hm))

theorem alookup_map_update_ne {d : List (String × α)} {c k : String}
    (v : α) (h : c ≠ k) :
    alookup c (d.map (fun p => if p.1 = k then (k, v) else p)) =
      alookup c d := by
  induction d with
  | nil => rfl
  | cons hd tl ih =>
      obtain ⟨k1, v1⟩ := hd
      rw [List.map_cons]
      by_cases hk : k1 = k
      · have h1 : ((k1, v1).1 = k) := hk
        rw [if_pos h1, alookup_cons, alookup_cons]
        rw [if_neg (fun hkc => h hkc.symm), if_neg (fun h1c => (h (hk ▸ h1c).symm))]
        exact ih
      · have h1 : ¬ ((k1, v1).1 = k) := hk
        rw [if_neg h1, alookup_cons, alookup_cons]
        by_cases hc : k1 = c
        · rw [if_pos hc, if_pos hc]
        · rw [if_neg hc, if_neg hc]
          exact ih

theorem alookup_map_update_self {d : List (String × α)} {k : String}
    {w : α} (v : α) (h : alookup k d = some w) :
    alookup k (d.map (fun p => if p.1 = k then (k, v) else p)) = some v := by
  induction d with
  | nil => simp [alookup] at h
  | cons hd tl ih =>
      obtain ⟨k1, v1⟩ := hd
      rw [alookup_cons] at h
      rw [List.map_cons]
      by_cases hk : k1 = k
      · have h1 : ((k1, v1).1 = k) := hk
        rw [if_pos h1, alookup_cons, if_pos rfl]
      · have h1 : ¬ ((k1, v1).1 = k) := hk
        rw [if_neg h1, alookup_cons, if_neg hk]
        rw [if_neg hk] at h
        exact ih h

theorem alookup_dictSet_self {d : List (String × α)} {k : String} (v : α) :
    alookup k (dictSet d k v) = some v := by
  cases hs : alookup k d with
  | none =>
      have hns : ¬ (alookup k d).isSome = true := by simp [hs]
      rw [dictSet, if_neg hns, alookup_append_of_none hs, alookup_cons,
        if_pos rfl]
  | some w =>
      have hss : (alookup k d).isSome = true := by simp [hs]
      rw [dictSet, if_pos hss]
      exact alookup_map_update_self v hs

theorem alookup_dictSet_ne {d : List (String × α)} {c k : String} (v : α)
    (h : c ≠ k) : alookup c (dictSet d k v) = alookup c d := by
  by_cases hs : (alookup k d).isSome = true
  · rw [dictSet, if_pos hs]
    exact alookup_map_update_ne v h
  · rw [dictSet, if_neg hs]
    cases hc : alookup c d with
    | none =>
        rw [alookup_append_of_none hc, alookup_cons,
          if_neg (fun hkc => h hkc.symm)]
        rfl
    | some w => exact alookup_append_of_some hc

theorem dictKeys_append (d1 d2 : List (String × α)) :
    dictKeys (d1 ++ d2) = dictKeys d1 ++ dictKeys d2 := by
  simp [dictKeys]

theorem dictKeys_dictSet (d : List (String × α)) (k : String) (v : α) :
    dictKeys (dictSet d k v) ⊆ dictKeys d ++ [k] := by
  by_cases hs : (alookup k d).isSome = true
  · rw [dictSet, if_pos hs]
    intro x hx
    simp only [dictKeys, List.map_map, List.mem_map, Function.comp] at hx
    obtain ⟨p, hp, hpx⟩ := hx
    by_cases hpk : p.1 = k
    · rw [if_pos hpk] at hpx
      simp [← hpx]
    · rw [if_neg hpk] at hpx
      subst hpx
      exact List.mem_append_left _ (List.mem_map.mpr ⟨p, hp, rfl⟩)
  · rw [dictSet, if_neg hs, dictKeys_append]
    exact fun x hx => hx

theorem anyFlagBy_append (f : α → Bool) (d1 d2 : List (String × α)) :
    anyFlagBy f (d1 ++ d2) = (anyFlagBy f d1 || anyFlagBy f d2) := by
  simp [anyFlagBy]

theorem anyFlagBy_single (f : α → Bool) (k : String) (v : α) :
    anyFlagBy f [(k, v)] = f v := by
  simp [anyFlagBy]


/-! Field behavior of the DriftReport.add_* methods. -/

@[simp] theorem addKs_reference_period (r : DriftReport) (c : String) (s p : ℚ) (b : Bool) :
    (r.add_ks_test c s p b).reference_period = r.reference_period := by
  cases b <;> rfl

@[simp] theorem addKs_current_period (r : DriftReport) (c : String) (s p : ℚ) (b : Bool) :
    (r.add_ks_test c s p b).current_period = r.current_period := by
  cases b <;> rfl

@[simp] theorem addKs_reference_size (r : DriftReport) (c : String) (s p : ℚ) (b : Bool) :
    (r.add_ks_test c s p b).reference_size = r.reference_size := by
  cases b <;> rfl

@[simp] theorem addKs_current_size (r : DriftReport) (c : String) (s p : ℚ) (b : Bool) :
    (r.add_ks_test c s p b).current_size = r.current_size := by
  cases b <;> rfl

@[simp] theorem addKs_timestamp (r : DriftReport) (c : String) (s p : ℚ) (b : Bool) :
    (r.add_ks_test c s p b).timestamp = r.timestamp := by
  cases b <;> rfl

@[simp] theorem addKs_ks_tests (r : DriftReport) (c : String) (s p : ℚ) (b : Bool) :
    (r.add_ks_test c s p b).ks_tests = dictSet r.ks_tests c ⟨round6 s, round6 p, b, interp b⟩ := by
  cases b <;> rfl

@[simp] theorem addKs_wasserstein_tests (r : DriftReport) (c : String) (s p : ℚ) (b : Bool) :
    (r.add_ks_test c s p b).wasserstein_tests = r.wasserstein_tests := by
  cases b <;> rfl

@[simp] theorem addKs_psi_tests (r : DriftReport) (c : String) (s p : ℚ) (b : Bool) :
    (r.add_ks_test c s p b).psi_tests = r.psi_tests := by
  cases b <;> rfl

@[simp] theorem addKs_chi_square_tests (r : DriftReport) (c : String) (s p : ℚ) (b : Bool) :
    (r.add_ks_test c s p b).chi_square_tests = r.chi_square_tests := by
  cases b <;> rfl

@[simp] theorem addKs_missing_columns (r : DriftReport) (c : String) (s p : ℚ) (b : Bool) :
    (r.add_ks_test c s p b).missing_columns = r.missing_columns := by
  cases b <;> rfl

@[simp] theorem addKs_overall_severity (r : DriftReport) (c : String) (s p : ℚ) (b : Bool) :
    (r.add_ks_test c s p b).overall_severity = r.overall_severity := by
  cases b <;> rfl

@[simp] theorem addKs_drift_detected (r : DriftReport) (c : String) (s p : ℚ) (b : Bool) :
    (r.add_ks_test c s p b).drift_detected = (r.drift_detected || b) := by
  cases b <;> simp [DriftReport.add_ks_test]

@[simp] theorem addWs_reference_period (r : DriftReport) (c : String) (dv : ℚ) (b : Bool) :
    (r.add_wasserstein c dv b).reference_period = r.reference_period := by
  cases b <;> rfl

@[simp] theorem addWs_current_period (r : DriftReport) (c : String) (dv : ℚ) (b : Bool) :
    (r.add_wasserstein c dv b).current_period = r.current_period := by
  cases b <;> rfl

@[simp] theorem addWs_reference_size (r : DriftReport) (c : String) (dv : ℚ) (b : Bool) :
    (r.add_wasserstein c dv b).reference_size = r.reference_size := by
  cases b <;> rfl

@[simp] theorem addWs_current_size (r : DriftReport) (c : String) (dv : ℚ) (b : Bool) :
    (r.add_wasserstein c dv b).current_size = r.current_size := by
  cases b <;> rfl

@[simp] theorem addWs_timestamp (r : DriftReport) (c : String) (dv : ℚ) (b : Bool) :
    (r.add_wasserstein c dv b).timestamp = r.timestamp := by
  cases b <;> rfl

@[simp] theorem addWs_ks_tests (r : DriftReport) (c : String) (dv : ℚ) (b : Bool) :
    (r.add_wasserstein c dv b).ks_tests = r.ks_tests := by
  cases b <;> rfl

@[simp] theorem addWs_wasserstein_tests (r : DriftReport) (c : String) (dv : ℚ) (b : Bool) :
    (r.add_wasserstein c dv b).wasserstein_tests = dictSet r.wasserstein_tests c ⟨round6 dv, b, interp b⟩ := by
  cases b <;> rfl

@[simp] theorem addWs_psi_tests (r : DriftReport) (c : String) (dv : ℚ) (b : Bool) :
    (r.add_wasserstein c dv b).psi_tests = r.psi_tests := by
  cases b <;> rfl

@[simp] theorem addWs_chi_square_tests (r : DriftReport) (c : String) (dv : ℚ) (b : Bool) :
    (r.add_wasserstein c dv b).chi_square_tests = r.chi_square_tests := by
  cases b <;> rfl

@[simp] theorem addWs_missing_columns (r : DriftReport) (c : String) (dv : ℚ) (b : Bool) :
    (r.add_wasserstein c dv b).missing_columns = r.missing_columns := by
  cases b <;> rfl

@[simp] theorem addWs_overall_severity (r : DriftReport) (c : String) (dv : ℚ) (b : Bool) :
    (r.add_wasserstein c dv b).overall_severity = r.overall_severity := by
  cases b <;> rfl

@[simp] theorem addWs_drift_detected (r : DriftReport) (c : String) (dv : ℚ) (b : Bool) :
    (r.add_wasserstein c dv b).drift_detected = (r.drift_detected || b) := by
  cases b <;> simp [DriftReport.add_wasserstein]

@[simp] theorem addPsi_reference_period (r : DriftReport) (c : String) (v : ℚ) (b : Bool) :
    (r.add_psi c v b).reference_period = r.reference_period := by
  cases b <;> rfl

@[simp] theorem addPsi_current_period (r : DriftReport) (c : String) (v : ℚ) (b : Bool) :
    (r.add_psi c v b).current_period = r.current_period := by
  cases b <;> rfl

@[simp] theorem addPsi_reference_size (r : DriftReport) (c : String) (v : ℚ) (b : Bool) :
    (r.add_psi c v b).reference_size = r.reference_size := by
  cases b <;> rfl

@[simp] theorem addPsi_current_size (r : DriftReport) (c : String) (v : ℚ) (b : Bool) :
    (r.add_psi c v b).current_size = r.current_size := by
  cases b <;> rfl

@[simp] theorem addPsi_timestamp (r : DriftReport) (c : String) (v : ℚ) (b : Bool) :
    (r.add_psi c v b).timestamp = r.timestamp := by
  cases b <;> rfl

@[simp] theorem addPsi_ks_tests (r : DriftReport) (c : String) (v : ℚ) (b : Bool) :
    (r.add_psi c v b).ks_tests = r.ks_tests := by
  cases b <;> rfl

@[simp] theorem addPsi_wasserstein_tests (r : DriftReport) (c : String) (v : ℚ) (b : Bool) :
    (r.add_psi c v b).wasserstein_tests = r.wasserstein_tests := by
  cases b <;> rfl

@[simp] theorem addPsi_psi_tests (r : DriftReport) (c : String) (v : ℚ) (b : Bool) :
    (r.add_psi c v b).psi_tests = dictSet r.psi_tests c ⟨round6 v, b, interp b, getPsiSeverity v⟩ := by
  cases b <;> rfl

@[simp] theorem addPsi_chi_square_tests (r : DriftReport) (c : String) (v : ℚ) (b : Bool) :
    (r.add_psi c v b).chi_square_tests = r.chi_square_tests := by
  cases b <;> rfl

@[simp] theorem addPsi_missing_columns (r : DriftReport) (c : String) (v : ℚ) (b : Bool) :
    (r.add_psi c v b).missing_columns = r.missing_columns := by
  cases b <;> rfl

@[simp] theorem addPsi_overall_severity (r : DriftReport) (c : String) (v : ℚ) (b : Bool) :
    (r.add_psi c v b).overall_severity = if b then "HIGH" else r.overall_severity := by
  cases b <;> rfl

@[simp] theorem addPsi_drift_detected (r : DriftReport) (c : String) (v : ℚ) (b : Bool) :
    (r.add_psi c v b).drift_detected = (r.drift_detected || b) := by
  cases b <;> simp [DriftReport.add_psi]

@[simp] theorem addChi_reference_period (r : DriftReport) (c : String) (s p : ℚ) (b : Bool) :
    (r.add_chi_square c s p b).reference_period = r.reference_period := by
  cases b <;> rfl

@[simp] theorem addChi_current_period (r : DriftReport) (c : String) (s p : ℚ) (b : Bool) :
    (r.add_chi_square c s p b).current_period = r.current_period := by
  cases b <;> rfl

@[simp] theorem addChi_reference_size (r : DriftReport) (c : String) (s p : ℚ) (b : Bool) :
    (r.add_chi_square c s p b).reference_size = r.reference_size := by
  cases b <;> rfl

@[simp] theorem addChi_current_size (r : DriftReport) (c : String) (s p : ℚ) (b : Bool) :
    (r.add_chi_square c s p b).current_size = r.current_size := by
  cases b <;> rfl

@[simp] theorem addChi_timestamp (r : DriftReport) (c : String) (s p : ℚ) (b : Bool) :
    (r.add_chi_square c s p b).timestamp = r.timestamp := by
  cases b <;> rfl

@[simp] theorem addChi_ks_tests (r : DriftReport) (c : String) (s p : ℚ) (b : Bool) :
    (r.add_chi_square c s p b).ks_tests = r.ks_tests := by
  cases b <;> rfl

@[simp] theorem addChi_wasserstein_tests (r : DriftReport) (c : String) (s p : ℚ) (b : Bool) :
    (r.add_chi_square c s p b).wasserstein_tests = r.wasserstein_tests := by
  cases b <;> rfl

@[simp] theorem addChi_psi_tests (r : DriftReport) (c : String) (s p : ℚ) (b : Bool) :
    (r.add_chi_square c s p b).psi_tests = r.psi_tests := by
  cases b <;> rfl

@[simp] theorem addChi_chi_square_tests (r : DriftReport) (c : String) (s p : ℚ) (b : Bool) :
    (r.add_chi_square c s p b).chi_square_tests = dictSet r.chi_square_tests c ⟨round6 s, round6 p, b, interp b⟩ := by
  cases b <;> rfl

@[simp] theorem addChi_missing_columns (r : DriftReport) (c : String) (s p : ℚ) (b : Bool) :
    (r.add_chi_square c s p b).missing_columns = r.missing_columns := by
  cases b <;> rfl

@[simp] theorem addChi_overall_severity (r : DriftReport) (c : String) (s p : ℚ) (b : Bool) :
    (r.add_chi_square c s p b).overall_severity = r.overall_severity := by
  cases b <;> rfl

@[simp] theorem addChi_drift_detected (r : DriftReport) (c : String) (s p : ℚ) (b : Bool) :
    (r.add_chi_square c s p b).drift_detected = (r.drift_detected || b) := by
  cases b <;> simp [DriftReport.add_chi_square]

@[simp] theorem addMissing_reference_period (r : DriftReport) (c : String) :
    (r.add_missing_column c).reference_period = r.reference_period := rfl

@[simp] theorem addMissing_current_period (r : DriftReport) (c : String) :
    (r.add_missing_column c).current_period = r.current_period := rfl

@[simp] theorem addMissing_reference_size (r : DriftReport) (c : String) :
    (r.add_missing_column c).reference_size = r.reference_size := rfl

@[simp] theorem addMissing_current_size (r : DriftReport) (c : String) :
    (r.add_missing_column c).current_size = r.current_size := rfl

@[simp] theorem addMissing_timestamp (r : DriftReport) (c : String) :
    (r.add_missing_column c).timestamp = r.timestamp := rfl

@[simp] theorem addMissing_ks_tests (r : DriftReport) (c : String) :
    (r.add_missing_column c).ks_tests = r.ks_tests := rfl

@[simp] theorem addMissing_wasserstein_tests (r : DriftReport) (c : String) :
    (r.add_missing_column c).wasserstein_tests = r.wasserstein_tests := rfl

@[simp] theorem addMissing_psi_tests (r : DriftReport) (c : String) :
    (r.add_missing_column c).psi_tests = r.psi_tests := rfl

@[simp] theorem addMissing_chi_square_tests (r : DriftReport) (c : String) :
    (r.add_missing_column c).chi_square_tests = r.chi_square_tests := rfl

@[simp] theorem addMissing_missing_columns (r : DriftReport) (c : String) :
    (r.add_missing_column c).missing_columns = r.missing_columns ++ [c] := rfl

@[simp] theorem addMissing_overall_severity (r : DriftReport) (c : String) :
    (r.add_missing_column c).overall_severity = "CRITICAL" := rfl

@[simp] theorem addMissing_drift_detected (r : DriftReport) (c : String) :
    (r.add_missing_column c).drift_detected = true := rfl


/-! Reference statistics lookups. -/

theorem alookup_map_pair (f : β → γ) (l : List (String × β)) (k : String) :
    alookup k (l.map (fun p => (p.1, f p.2))) = (alookup k l).map f := by
  induction l with
  | nil => rfl
  | cons hd tl ih =>
      obtain ⟨k1, v1⟩ := hd
      rw [List.map_cons]
      by_cases hk : k1 = k
      · rw [alookup_cons, alookup_cons, if_pos hk, if_pos hk]
        rfl
      · rw [alookup_cons, alookup_cons, if_neg hk, if_neg hk]
        exact ih

theorem alookup_calcStats (df : DataFrame) (c : String) :
    alookup c (calculateStatistics df) = (df.lookup c).map statsOf := by
  unfold calculateStatistics DataFrame.lookup
  exact alookup_map_pair statsOf df.cols c

/-- C2 counterexample: constructing the engine on the empty reference
dataset does not raise; it yields an ordinary engine with empty statistics
and empty history (the claimed DataValidationError does not exist in the
code). -/
theorem drift_c2_counterexample :
    DriftDetectionEngine.init emptyDF defaultThresholdKs defaultThresholdPsi
      defaultThresholdWasserstein "2024-12-01" =
    ⟨emptyDF, defaultThresholdKs, defaultThresholdPsi,
      defaultThresholdWasserstein, "2024-12-01", [], []⟩ := rfl

/-- C2 (amended): construction performs no validation and always
succeeds — for every reference dataset (empty, zero-column or not) the
engine initializes with the given thresholds and period, per-column
statistics, and an empty history; no error path exists. -/
theorem drift_c2_init_total :
    ∀ (df : DataFrame) (t1 t2 t3 : ℚ) (p : String),
      DriftDetectionEngine.init df t1 t2 t3 p =
        ⟨df, t1, t2, t3, p, calculateStatistics df, []⟩ ∧
      (calculateStatistics df).length = df.cols.length := by
  intro df t1 t2 t3 p
  refine ⟨rfl, ?_⟩
  simp [calculateStatistics]

/-- C5: detect_drift mutates only the drift history, appending exactly the
serialized form of the returned report; reference data, frozen statistics,
thresholds and the reference period are untouched. -/
theorem drift_c5_frame :
    ∀ (O : Oracles) (e : DriftDetectionEngine) (cur : DataFrame)
      (now : String) (g : RNG),
      ((e.detect_drift O cur now g).2.1.reference_data = e.reference_data) ∧
      ((e.detect_drift O cur now g).2.1.reference_stats =
        e.reference_stats) ∧
      ((e.detect_drift O cur now g).2.1.threshold_ks = e.threshold_ks) ∧
      ((e.detect_drift O cur now g).2.1.threshold_psi = e.threshold_psi) ∧
      ((e.detect_drift O cur now g).2.1.threshold_wasserstein =
        e.threshold_wasserstein) ∧
      ((e.detect_drift O cur now g).2.1.reference_period =
        e.reference_period) ∧
      ((e.detect_drift O cur now g).2.1.drift_history =
        e.drift_history ++ [(e.detect_drift O cur now g).1.to_dict]) := by
  intro O e cur now g
  exact ⟨rfl, rfl, rfl, rfl, rfl, rfl, rfl⟩

/-- C10: calling ks_test, wasserstein_distance or
population_stability_index directly on a column that is present and
numeric in the reference but absent from the supplied current dataset
fails with the key lookup error on the current dataset instead of
returning a null result. -/
theorem drift_c10_missing_current_raises :
    ∀ (O : Oracles) (df cur : DataFrame) (t1 t2 t3 : ℚ) (p col : String)
      (g : RNG) (nvs : List ℚ),
      df.lookup col = some (.numeric nvs) →
      cur.lookup col = none →
      ((DriftDetectionEngine.init df t1 t2 t3 p).ks_test O cur col =
        .error .keyError) ∧
      ((DriftDetectionEngine.init df t1 t2 t3 p).wasserstein_distance cur
        col g = (.error .keyError, g)) ∧
      ((DriftDetectionEngine.init df t1 t2 t3 p).population_stability_index
        O cur col = .error .keyError) := by
  intro O df cur t1 t2 t3 p col g nvs href hcur
  have hstats : getNumDist (calculateStatistics df) col = .ok nvs := by
    unfold getNumDist
    rw [alookup_calcStats, href]
    rfl
  have hget : getCurNum cur col = .error .keyError := by
    unfold getCurNum
    rw [hcur]
  refine ⟨?_, ?_, ?_⟩
  · show (DriftDetectionEngine.ks_test _ _ _ _) = _
    unfold DriftDetectionEngine.ks_test
    simp only [DriftDetectionEngine.init, href, hstats, hget]
  · show (DriftDetectionEngine.wasserstein_distance _ _ _ _) = _
    unfold DriftDetectionEngine.wasserstein_distance
    simp only [DriftDetectionEngine.init, href, hstats, hget]
  · show (DriftDetectionEngine.population_stability_index _ _ _ _) = _
    unfold DriftDetectionEngine.population_stability_index
    simp only [DriftDetectionEngine.init, href, hstats, hget]

/-- C10 witness: the hypotheses hold and the conclusion follows at a
concrete engine and current dataset. -/
theorem drift_c10_missing_current_raises_witness :
    (dfC3ref.lookup "x" = some (.numeric [0, 100]) ∧
      emptyDF.lookup "x" = none) ∧
    (((DriftDetectionEngine.init dfC3ref 1 1 1 "ref").ks_test oracle0
        emptyDF "x" = .error .keyError) ∧
      ((DriftDetectionEngine.init dfC3ref 1 1 1 "ref").wasserstein_distance
        emptyDF "x" [] = (.error .keyError, [])) ∧
      ((DriftDetectionEngine.init dfC3ref 1 1 1
        "ref").population_stability_index oracle0 emptyDF "x" =
        .error .keyError)) :=
  ⟨⟨by decide, by decide⟩,
    drift_c10_missing_current_raises oracle0 dfC3ref emptyDF 1 1 1 "ref" "x"
      [] [0, 100] (by decide) (by decide)⟩

section StepLemmas

variable (O : Oracles) (e : DriftDetectionEngine) (cur : DataFrame)
  (c : String) (r : DriftReport) (g : RNG)

@[simp] theorem ksStep_reference_period : (ksStep O e cur c r).reference_period = r.reference_period := by
  unfold ksStep
  cases e.ks_test O cur c with
  | error err => rfl
  | ok ov => cases ov with
    | none => rfl
    | some sp => simp

@[simp] theorem ksStep_current_period : (ksStep O e cur c r).current_period = r.current_period := by
  unfold ksStep
  cases e.ks_test O cur c with
  | error err => rfl
  | ok ov => cases ov with
    | none => rfl
    | some sp => simp

@[simp] theorem ksStep_reference_size : (ksStep O e cur c r).reference_size = r.reference_size := by
  unfold ksStep
  cases e.ks_test O cur c with
  | error err => rfl
  | ok ov => cases ov with
    | none => rfl
    | some sp => simp

@[simp] theorem ksStep_current_size : (ksStep O e cur c r).current_size = r.current_size := by
  unfold ksStep
  cases e.ks_test O cur c with
  | error err => rfl
  | ok ov => cases ov with
    | none => rfl
    | some sp => simp

@[simp] theorem ksStep_timestamp : (ksStep O e cur c r).timestamp = r.timestamp := by
  unfold ksStep
  cases e.ks_test O cur c with
  | error err => rfl
  | ok ov => cases ov with
    | none => rfl
    | some sp => simp

@[simp] theorem ksStep_wasserstein_tests : (ksStep O e cur c r).wasserstein_tests = r.wasserstein_tests := by
  unfold ksStep
  cases e.ks_test O cur c with
  | error err => rfl
  | ok ov => cases ov with
    | none => rfl
    | some sp => simp

@[simp] theorem ksStep_psi_tests : (ksStep O e cur c r).psi_tests = r.psi_tests := by
  unfold ksStep
  cases e.ks_test O cur c with
  | error err => rfl
  | ok ov => cases ov with
    | none => rfl
    | some sp => simp

@[simp] theorem ksStep_chi_square_tests : (ksStep O e cur c r).chi_square_tests = r.chi_square_tests := by
  unfold ksStep
  cases e.ks_test O cur c with
  | error err => rfl
  | ok ov => cases ov with
    | none => rfl
    | some sp => simp

@[simp] theorem ksStep_missing_columns : (ksStep O e cur c r).missing_columns = r.missing_columns := by
  unfold ksStep
  cases e.ks_test O cur c with
  | error err => rfl
  | ok ov => cases ov with
    | none => rfl
    | some sp => simp

@[simp] theorem ksStep_overall_severity : (ksStep O e cur c r).overall_severity = r.overall_severity := by
  unfold ksStep
  cases e.ks_test O cur c with
  | error err => rfl
  | ok ov => cases ov with
    | none => rfl
    | some sp => simp

theorem ksStep_own_lookup_ne (col : String) (hne : col ≠ c) :
    alookup col (ksStep O e cur c r).ks_tests = alookup col r.ks_tests := by
  unfold ksStep
  cases e.ks_test O cur c with
  | error err => rfl
  | ok ov => cases ov with
    | none => rfl
    | some sp => simp [alookup_dictSet_ne _ hne]

theorem ksStep_own_keys :
    dictKeys (ksStep O e cur c r).ks_tests ⊆ dictKeys r.ks_tests ++ [c] := by
  unfold ksStep
  cases e.ks_test O cur c with
  | error err => exact fun x hx => List.mem_append_left _ hx
  | ok ov => cases ov with
    | none => exact fun x hx => List.mem_append_left _ hx
    | some sp =>
        rw [addKs_ks_tests]
        exact dictKeys_dictSet _ _ _

@[simp] theorem psiStep_reference_period : (psiStep O e cur c r).reference_period = r.reference_period := by
  unfold psiStep
  cases e.population_stability_index O cur c with
  | error err => rfl
  | ok ov => cases ov with
    | none => rfl
    | some sp => simp

@[simp] theorem psiStep_current_period : (psiStep O e cur c r).current_period = r.current_period := by
  unfold psiStep
  cases e.population_stability_index O cur c with
  | error err => rfl
  | ok ov => cases ov with
    | none => rfl
    | some sp => simp

@[simp] theorem psiStep_reference_size : (psiStep O e cur c r).reference_size = r.reference_size := by
  unfold psiStep
  cases e.population_stability_index O cur c with
  | error err => rfl
  | ok ov => cases ov with
    | none => rfl
    | some sp => simp

@[simp] theorem psiStep_current_size : (psiStep O e cur c r).current_size = r.current_size := by
  unfold psiStep
  cases e.population_stability_index O cur c with
  | error err => rfl
  | ok ov => cases ov with
    | none => rfl
    | some sp => simp

@[simp] theorem psiStep_timestamp : (psiStep O e cur c r).timestamp = r.timestamp := by
  unfold psiStep
  cases e.population_stability_index O cur c with
  | error err => rfl
  | ok ov => cases ov with
    | none => rfl
    | some sp => simp

@[simp] theorem psiStep_ks_tests : (psiStep O e cur c r).ks_tests = r.ks_tests := by
  unfold psiStep
  cases e.population_stability_index O cur c with
  | error err => rfl
  | ok ov => cases ov with
    | none => rfl
    | some sp => simp

@[simp] theorem psiStep_wasserstein_tests : (psiStep O e cur c r).wasserstein_tests = r.wasserstein_tests := by
  unfold psiStep
  cases e.population_stability_index O cur c with
  | error err => rfl
  | ok ov => cases ov with
    | none => rfl
    | some sp => simp

@[simp] theorem psiStep_chi_square_tests : (psiStep O e cur c r).chi_square_tests = r.chi_square_tests := by
  unfold psiStep
  cases e.population_stability_index O cur c with
  | error err => rfl
  | ok ov => cases ov with
    | none => rfl
    | some sp => simp

@[simp] theorem psiStep_missing_columns : (psiStep O e cur c r).missing_columns = r.missing_columns := by
  unfold psiStep
  cases e.population_stability_index O cur c with
  | error err => rfl
  | ok ov => cases ov with
    | none => rfl
    | some sp => simp

theorem psiStep_own_lookup_ne (col : String) (hne : col ≠ c) :
    alookup col (psiStep O e cur c r).psi_tests = alookup col r.psi_tests := by
  unfold psiStep
  cases e.population_stability_index O cur c with
  | error err => rfl
  | ok ov => cases ov with
    | none => rfl
    | some sp => simp [alookup_dictSet_ne _ hne]

theorem psiStep_own_keys :
    dictKeys (psiStep O e cur c r).psi_tests ⊆ dictKeys r.psi_tests ++ [c] := by
  unfold psiStep
  cases e.population_stability_index O cur c with
  | error err => exact fun x hx => List.mem_append_left _ hx
  | ok ov => cases ov with
    | none => exact fun x hx => List.mem_append_left _ hx
    | some sp =>
        rw [addPsi_psi_tests]
        exact dictKeys_dictSet _ _ _

@[simp] theorem chiStep_reference_period : (chiStep O e cur c r).reference_period = r.reference_period := by
  unfold chiStep
  cases e.chi_square_test O cur c with
  | error err => rfl
  | ok ov => cases ov with
    | none => rfl
    | some sp => simp

@[simp] theorem chiStep_current_period : (chiStep O e cur c r).current_period = r.current_period := by
  unfold chiStep
  cases e.chi_square_test O cur c with
  | error err => rfl
  | ok ov => cases ov with
    | none => rfl
    | some sp => simp

@[simp] theorem chiStep_reference_size : (chiStep O e cur c r).reference_size = r.reference_size := by
  unfold chiStep
  cases e.chi_square_test O cur c with
  | error err => rfl
  | ok ov => cases ov with
    | none => rfl
    | some sp => simp

@[simp] theorem chiStep_current_size : (chiStep O e cur c r).current_size = r.current_size := by
  unfold chiStep
  cases e.chi_square_test O cur c with
  | error err => rfl
  | ok ov => cases ov with
    | none => rfl
    | some sp => simp

@[simp] theorem chiStep_timestamp : (chiStep O e cur c r).timestamp = r.timestamp := by
  unfold chiStep
  cases e.chi_square_test O cur c with
  | error err => rfl
  | ok ov => cases ov with
    | none => rfl
    | some sp => simp

@[simp] theorem chiStep_ks_tests : (chiStep O e cur c r).ks_tests = r.ks_tests := by
  unfold chiStep
  cases e.chi_square_test O cur c with
  | error err => rfl
  | ok ov => cases ov with
    | none => rfl
    | some sp => simp

@[simp] theorem chiStep_wasserstein_tests : (chiStep O e cur c r).wasserstein_tests = r.wasserstein_tests := by
  unfold chiStep
  cases e.chi_square_test O cur c with
  | error err => rfl
  | ok ov => cases ov with
    | none => rfl
    | some sp => simp

@[simp] theorem chiStep_psi_tests : (chiStep O e cur c r).psi_tests = r.psi_tests := by
  unfold chiStep
  cases e.chi_square_test O cur c with
  | error err => rfl
  | ok ov => cases ov with
    | none => rfl
    | some sp => simp

@[simp] theorem chiStep_missing_columns : (chiStep O e cur c r).missing_columns = r.missing_columns := by
  unfold chiStep
  cases e.chi_square_test O cur c with
  | error err => rfl
  | ok ov => cases ov with
    | none => rfl
    | some sp => simp

@[simp] theorem chiStep_overall_severity : (chiStep O e cur c r).overall_severity = r.overall_severity := by
  unfold chiStep
  cases e.chi_square_test O cur c with
  | error err => rfl
  | ok ov => cases ov with
    | none => rfl
    | some sp => simp

theorem chiStep_own_lookup_ne (col : String) (hne : col ≠ c) :
    alookup col (chiStep O e cur c r).chi_square_tests = alookup col r.chi_square_tests := by
  unfold chiStep
  cases e.chi_square_test O cur c with
  | error err => rfl
  | ok ov => cases ov with
    | none => rfl
    | some sp => simp [alookup_dictSet_ne _ hne]

theorem chiStep_own_keys :
    dictKeys (chiStep O e cur c r).chi_square_tests ⊆ dictKeys r.chi_square_tests ++ [c] := by
  unfold chiStep
  cases e.chi_square_test O cur c with
  | error err => exact fun x hx => List.mem_append_left _ hx
  | ok ov => cases ov with
    | none => exact fun x hx => List.mem_append_left _ hx
    | some sp =>
        rw [addChi_chi_square_tests]
        exact dictKeys_dictSet _ _ _

@[simp] theorem wsStep_reference_period (acc : DriftReport × RNG) :
    (wsStep e cur c acc).1.reference_period = acc.1.reference_period := by
  unfold wsStep
  rcases hws : e.wasserstein_distance cur c acc.2 with ⟨res, g2⟩
  cases res with
  | error err => rfl
  | ok ov => cases ov with
    | none => rfl
    | some d => simp

@[simp] theorem wsStep_current_period (acc : DriftReport × RNG) :
    (wsStep e cur c acc).1.current_period = acc.1.current_period := by
  unfold wsStep
  rcases hws : e.wasserstein_distance cur c acc.2 with ⟨res, g2⟩
  cases res with
  | error err => rfl
  | ok ov => cases ov with
    | none => rfl
    | some d => simp

@[simp] theorem wsStep_reference_size (acc : DriftReport × RNG) :
    (wsStep e cur c acc).1.reference_size = acc.1.reference_size := by
  unfold wsStep
  rcases hws : e.wasserstein_distance cur c acc.2 with ⟨res, g2⟩
  cases res with
  | error err => rfl
  | ok ov => cases ov with
    | none => rfl
    | some d => simp

@[simp] theorem wsStep_current_size (acc : DriftReport × RNG) :
    (wsStep e cur c acc).1.current_size = acc.1.current_size := by
  unfold wsStep
  rcases hws : e.wasserstein_distance cur c acc.2 with ⟨res, g2⟩
  cases res with
  | error err => rfl
  | ok ov => cases ov with
    | none => rfl
    | some d => simp

@[simp] theorem wsStep_timestamp (acc : DriftReport × RNG) :
    (wsStep e cur c acc).1.timestamp = acc.1.timestamp := by
  unfold wsStep
  rcases hws : e.wasserstein_distance cur c acc.2 with ⟨res, g2⟩
  cases res with
  | error err => rfl
  | ok ov => cases ov with
    | none => rfl
    | some d => simp

@[simp] theorem wsStep_ks_tests (acc : DriftReport × RNG) :
    (wsStep e cur c acc).1.ks_tests = acc.1.ks_tests := by
  unfold wsStep
  rcases hws : e.wasserstein_distance cur c acc.2 with ⟨res, g2⟩
  cases res with
  | error err => rfl
  | ok ov => cases ov with
    | none => rfl
    | some d => simp

@[simp] theorem wsStep_psi_tests (acc : DriftReport × RNG) :
    (wsStep e cur c acc).1.psi_tests = acc.1.psi_tests := by
  unfold wsStep
  rcases hws : e.wasserstein_distance cur c acc.2 with ⟨res, g2⟩
  cases res with
  | error err => rfl
  | ok ov => cases ov with
    | none => rfl
    | some d => simp

@[simp] theorem wsStep_chi_square_tests (acc : DriftReport × RNG) :
    (wsStep e cur c acc).1.chi_square_tests = acc.1.chi_square_tests := by
  unfold wsStep
  rcases hws : e.wasserstein_distance cur c acc.2 with ⟨res, g2⟩
  cases res with
  | error err => rfl
  | ok ov => cases ov with
    | none => rfl
    | some d => simp

@[simp] theorem wsStep_missing_columns (acc : DriftReport × RNG) :
    (wsStep e cur c acc).1.missing_columns = acc.1.missing_columns := by
  unfold wsStep
  rcases hws : e.wasserstein_distance cur c acc.2 with ⟨res, g2⟩
  cases res with
  | error err => rfl
  | ok ov => cases ov with
    | none => rfl
    | some d => simp

@[simp] theorem wsStep_overall_severity (acc : DriftReport × RNG) :
    (wsStep e cur c acc).1.overall_severity = acc.1.overall_severity := by
  unfold wsStep
  rcases hws : e.wasserstein_distance cur c acc.2 with ⟨res, g2⟩
  cases res with
  | error err => rfl
  | ok ov => cases ov with
    | none => rfl
    | some d => simp

theorem wsStep_own_lookup_ne (acc : DriftReport × RNG) (col : String)
    (hne : col ≠ c) :
    alookup col (wsStep e cur c acc).1.wasserstein_tests =
      alookup col acc.1.wasserstein_tests := by
  unfold wsStep
  rcases hws : e.wasserstein_distance cur c acc.2 with ⟨res, g2⟩
  cases res with
  | error err => rfl
  | ok ov => cases ov with
    | none => rfl
    | some d => simp [alookup_dictSet_ne _ hne]

theorem wsStep_own_keys (acc : DriftReport × RNG) :
    dictKeys (wsStep e cur c acc).1.wasserstein_tests ⊆
      dictKeys acc.1.wasserstein_tests ++ [c] := by
  unfold wsStep
  rcases hws : e.wasserstein_distance cur c acc.2 with ⟨res, g2⟩
  cases res with
  | error err => exact fun x hx => List.mem_append_left _ hx
  | ok ov => cases ov with
    | none => exact fun x hx => List.mem_append_left _ hx
    | some d =>
        rw [addWs_wasserstein_tests]
        exact dictKeys_dictSet _ _ _

end StepLemmas


/-! Preservation of the drift_detected bookkeeping invariant. -/

theorem flagInv_addKs (r : DriftReport) (c : String) (s p : ℚ) (b : Bool)
    (h : alookup c r.ks_tests = none) (hinv : FlagInv r) :
    FlagInv (r.add_ks_test c s p b) := by
  unfold FlagInv entriesFlag at hinv ⊢
  simp only [addKs_ks_tests, addKs_wasserstein_tests, addKs_psi_tests,
    addKs_chi_square_tests, addKs_missing_columns, addKs_drift_detected,
    dictSet_of_fresh _ h, anyFlagBy_append, anyFlagBy_single]
  simp only [Bool.or_eq_true] at hinv ⊢
  tauto

theorem flagInv_addWs (r : DriftReport) (c : String) (dv : ℚ) (b : Bool)
    (h : alookup c r.wasserstein_tests = none) (hinv : FlagInv r) :
    FlagInv (r.add_wasserstein c dv b) := by
  unfold FlagInv entriesFlag at hinv ⊢
  simp only [addWs_ks_tests, addWs_wasserstein_tests, addWs_psi_tests,
    addWs_chi_square_tests, addWs_missing_columns, addWs_drift_detected,
    dictSet_of_fresh _ h, anyFlagBy_append, anyFlagBy_single]
  simp only [Bool.or_eq_true] at hinv ⊢
  tauto

theorem flagInv_addPsi (r : DriftReport) (c : String) (v : ℚ) (b : Bool)
    (h : alookup c r.psi_tests = none) (hinv : FlagInv r) :
    FlagInv (r.add_psi c v b) := by
  unfold FlagInv entriesFlag at hinv ⊢
  simp only [addPsi_ks_tests, addPsi_wasserstein_tests, addPsi_psi_tests,
    addPsi_chi_square_tests, addPsi_missing_columns, addPsi_drift_detected,
    dictSet_of_fresh _ h, anyFlagBy_append, anyFlagBy_single]
  simp only [Bool.or_eq_true] at hinv ⊢
  tauto

theorem flagInv_addChi (r : DriftReport) (c : String) (s p : ℚ) (b : Bool)
    (h : alookup c r.chi_square_tests = none) (hinv : FlagInv r) :
    FlagInv (r.add_chi_square c s p b) := by
  unfold FlagInv entriesFlag at hinv ⊢
  simp only [addChi_ks_tests, addChi_wasserstein_tests, addChi_psi_tests,
    addChi_chi_square_tests, addChi_missing_columns, addChi_drift_detected,
    dictSet_of_fresh _ h, anyFlagBy_append, anyFlagBy_single]
  simp only [Bool.or_eq_true] at hinv ⊢
  tauto

theorem flagInv_addMissing (r : DriftReport) (c : String)
    (_hinv : FlagInv r) : FlagInv (r.add_missing_column c) := by
  unfold FlagInv
  simp

theorem flagInv_ksStep (O : Oracles) (e : DriftDetectionEngine)
    (cur : DataFrame) (c : String) (r : DriftReport)
    (h : alookup c r.ks_tests = none) (hinv : FlagInv r) :
    FlagInv (ksStep O e cur c r) := by
  unfold ksStep
  cases e.ks_test O cur c with
  | error err => exact hinv
  | ok ov => cases ov with
    | none => exact hinv
    | some sp => exact flagInv_addKs r c sp.1 sp.2 _ h hinv

theorem flagInv_wsStep (e : DriftDetectionEngine) (cur : DataFrame)
    (c : String) (acc : DriftReport × RNG)
    (h : alookup c acc.1.wasserstein_tests = none) (hinv : FlagInv acc.1) :
    FlagInv (wsStep e cur c acc).1 := by
  unfold wsStep
  rcases hws : e.wasserstein_distance cur c acc.2 with ⟨res, g2⟩
  cases res with
  | error err => exact hinv
  | ok ov => cases ov with
    | none => exact hinv
    | some d => exact flagInv_addWs acc.1 c d _ h hinv

theorem flagInv_psiStep (O : Oracles) (e : DriftDetectionEngine)
    (cur : DataFrame) (c : String) (r : DriftReport)
    (h : alookup c r.psi_tests = none) (hinv : FlagInv r) :
    FlagInv (psiStep O e cur c r) := by
  unfold psiStep
  cases e.population_stability_index O cur c with
  | error err => exact hinv
  | ok ov => cases ov with
    | none => exact hinv
    | some v => exact flagInv_addPsi r c v _ h hinv

theorem flagInv_chiStep (O : Oracles) (e : DriftDetectionEngine)
    (cur : DataFrame) (c : String) (r : DriftReport)
    (h : alookup c r.chi_square_tests = none) (hinv : FlagInv r) :
    FlagInv (chiStep O e cur c r) := by
  unfold chiStep
  cases e.chi_square_test O cur c with
  | error err => exact hinv
  | ok ov => cases ov with
    | none => exact hinv
    | some sp => exact flagInv_addChi r c sp.1 sp.2 _ h hinv

theorem reportKeys_not_mem {r : DriftReport} {c : String}
    (h : c ∉ reportKeys r) :
    alookup c r.ks_tests = none ∧ alookup c r.wasserstein_tests = none ∧
    alookup c r.psi_tests = none ∧ alookup c r.chi_square_tests = none := by
  unfold reportKeys at h
  simp only [List.mem_append, not_or] at h
  exact ⟨alookup_eq_none_iff.mpr h.1.1.1, alookup_eq_none_iff.mpr h.1.1.2,
    alookup_eq_none_iff.mpr h.1.2, alookup_eq_none_iff.mpr h.2⟩

theorem flagInv_processColumn (O : Oracles) (e : DriftDetectionEngine)
    (cur : DataFrame) (r : DriftReport) (g : RNG) (c : String)
    (hfresh : c ∉ reportKeys r) (hinv : FlagInv r) :
    FlagInv (processColumn O e cur (r, g) c).1 := by
  obtain ⟨hks, hws, hpsi, hchi⟩ := reportKeys_not_mem hfresh
  unfold processColumn
  cases hc : cur.lookup c with
  | none => exact flagInv_addMissing r c hinv
  | some cv =>
    cases href : e.reference_data.lookup c with
    | none => exact flagInv_chiStep O e cur c r hchi hinv
    | some rc =>
      cases rc with
      | categorical rvs => exact flagInv_chiStep O e cur c r hchi hinv
      | numeric nvs =>
          apply flagInv_psiStep
          · rw [wsStep_psi_tests, ksStep_psi_tests]
            exact hpsi
          · apply flagInv_wsStep
            · rw [ksStep_wasserstein_tests]
              exact hws
            · exact flagInv_ksStep O e cur c r hks hinv

theorem reportKeys_mono {rp r : DriftReport} {c : String}
    (h1 : dictKeys rp.ks_tests ⊆ dictKeys r.ks_tests ++ [c])
    (h2 : dictKeys rp.wasserstein_tests ⊆
      dictKeys r.wasserstein_tests ++ [c])
    (h3 : dictKeys rp.psi_tests ⊆ dictKeys r.psi_tests ++ [c])
    (h4 : dictKeys rp.chi_square_tests ⊆
      dictKeys r.chi_square_tests ++ [c]) :
    reportKeys rp ⊆ reportKeys r ++ [c] := by
  intro x hx
  unfold reportKeys at hx ⊢
  simp only [List.mem_append, List.mem_singleton] at hx ⊢
  rcases hx with ((hx | hx) | hx) | hx
  · rcases List.mem_append.mp (h1 hx) with h | h
    · tauto
    · simp only [List.mem_singleton] at h
      tauto
  · rcases List.mem_append.mp (h2 hx) with h | h
    · tauto
    · simp only [List.mem_singleton] at h
      tauto
  · rcases List.mem_append.mp (h3 hx) with h | h
    · tauto
    · simp only [List.mem_singleton] at h
      tauto
  · rcases List.mem_append.mp (h4 hx) with h | h
    · tauto
    · simp only [List.mem_singleton] at h
      tauto

theorem processColumn_keys (O : Oracles) (e : DriftDetectionEngine)
    (cur : DataFrame) (r : DriftReport) (g : RNG) (c : String) :
    reportKeys (processColumn O e cur (r, g) c).1 ⊆ reportKeys r ++ [c] := by
  unfold processColumn
  cases hc : cur.lookup c with
  | none =>
      intro x hx
      apply List.mem_append_left
      unfold reportKeys at hx ⊢
      simpa using hx
  | some cv =>
    cases href : e.reference_data.lookup c with
    | none =>
        apply reportKeys_mono
        · rw [chiStep_ks_tests]
          exact fun x hx => List.mem_append_left _ hx
        · rw [chiStep_wasserstein_tests]
          exact fun x hx => List.mem_append_left _ hx
        · rw [chiStep_psi_tests]
          exact fun x hx => List.mem_append_left _ hx
        · exact chiStep_own_keys O e cur c r
    | some rc =>
      cases rc with
      | categorical rvs =>
          apply reportKeys_mono
          · rw [chiStep_ks_tests]
            exact fun x hx => List.mem_append_left _ hx
          · rw [chiStep_wasserstein_tests]
            exact fun x hx => List.mem_append_left _ hx
          · rw [chiStep_psi_tests]
            exact fun x hx => List.mem_append_left _ hx
          · exact chiStep_own_keys O e cur c r
      | numeric nvs =>
          apply reportKeys_mono
          · rw [psiStep_ks_tests, wsStep_ks_tests]
            exact ksStep_own_keys O e cur c r
          · rw [psiStep_wasserstein_tests]
            refine subset_trans (wsStep_own_keys e cur c _) ?_
            rw [ksStep_wasserstein_tests]
            exact fun x hx => hx
          · refine subset_trans (psiStep_own_keys O e cur c _) ?_
            rw [wsStep_psi_tests, ksStep_psi_tests]
            exact fun x hx => hx
          · rw [psiStep_chi_square_tests, wsStep_chi_square_tests,
              ksStep_chi_square_tests]
            exact fun x hx => List.mem_append_left _ hx


theorem foldl_flagInv (O : Oracles) (e : DriftDetectionEngine)
    (cur : DataFrame) :
    ∀ (cols : List String) (r : DriftReport) (g : RNG),
      FlagInv r → (∀ x ∈ cols, x ∉ reportKeys r) → cols.Nodup →
      FlagInv ((cols.foldl (processColumn O e cur) (r, g)).1) := by
  intro cols
  induction cols with
  | nil =>
      intro r g hinv _ _
      simpa using hinv
  | cons c tl ih =>
      intro r g hinv hfresh hnd
      rw [List.foldl_cons]
      have hfc : c ∉ reportKeys r := hfresh c (List.mem_cons_self c tl)
      have h1 : FlagInv (processColumn O e cur (r, g) c).1 :=
        flagInv_processColumn O e cur r g c hfc hinv
      have hk := processColumn_keys O e cur r g c
      have h2 : ∀ x ∈ tl, x ∉ reportKeys (processColumn O e cur (r, g) c).1 := by
        intro x hx hmem
        rcases List.mem_append.mp (hk hmem) with hin | hin
        · exact hfresh x (List.mem_cons_of_mem c hx) hin
        · rw [List.mem_singleton] at hin
          subst hin
          exact (List.nodup_cons.mp hnd).1 hx
      have heta : processColumn O e cur (r, g) c =
          ((processColumn O e cur (r, g) c).1,
            (processColumn O e cur (r, g) c).2) := rfl
      rw [heta]
      exact ih (processColumn O e cur (r, g) c).1
        (processColumn O e cur (r, g) c).2 h1 h2
        (List.nodup_cons.mp hnd).2

theorem entriesFlag_iff (r : DriftReport) :
    entriesFlag r = true ↔
      ((∃ p ∈ r.ks_tests, KSEntry.drift_detected p.2 = true) ∨
       (∃ p ∈ r.wasserstein_tests, WSEntry.drift_detected p.2 = true) ∨
       (∃ p ∈ r.psi_tests, PSIEntry.drift_detected p.2 = true) ∨
       (∃ p ∈ r.chi_square_tests, ChiEntry.drift_detected p.2 = true)) := by
  unfold entriesFlag anyFlagBy
  simp only [Bool.or_eq_true, List.any_eq_true, or_assoc]

/-- C4: a report returned by detect_drift has drift_detected = true
exactly when at least one contained KS, Wasserstein, PSI or chi-square
result is flagged or at least one reference column is missing from the
current snapshot; a freshly constructed report has drift_detected =
false. -/
theorem drift_c4_flag_iff :
    ∀ (O : Oracles) (e : DriftDetectionEngine) (cur : DataFrame)
      (now : String) (g : RNG),
      e.reference_data.colNames.Nodup →
      (((e.detect_drift O cur now g).1.drift_detected = true ↔
        ((∃ p ∈ (e.detect_drift O cur now g).1.ks_tests,
            KSEntry.drift_detected p.2 = true) ∨
         (∃ p ∈ (e.detect_drift O cur now g).1.wasserstein_tests,
            WSEntry.drift_detected p.2 = true) ∨
         (∃ p ∈ (e.detect_drift O cur now g).1.psi_tests,
            PSIEntry.drift_detected p.2 = true) ∨
         (∃ p ∈ (e.detect_drift O cur now g).1.chi_square_tests,
            ChiEntry.drift_detected p.2 = true) ∨
         (e.detect_drift O cur now g).1.missing_columns ≠ [])) ∧
       ∀ (rp cp : String) (rs cs : Nat) (ts : String),
         (DriftReport.init rp cp rs cs ts).drift_detected = false) := by
  intro O e cur now g hnd
  constructor
  · have hbase : FlagInv (DriftReport.init e.reference_period now
        e.reference_data.nRows cur.nRows now) := by
      unfold FlagInv entriesFlag DriftReport.init anyFlagBy
      simp
    have hfresh : ∀ x ∈ e.reference_data.colNames,
        x ∉ reportKeys (DriftReport.init e.reference_period now
          e.reference_data.nRows cur.nRows now) := by
      intro x _ hmem
      unfold reportKeys DriftReport.init dictKeys at hmem
      simp at hmem
    have hinv := foldl_flagInv O e cur e.reference_data.colNames
      (DriftReport.init e.reference_period now e.reference_data.nRows
        cur.nRows now) g hbase hfresh hnd
    have hrepr : (e.detect_drift O cur now g).1 =
        (e.reference_data.colNames.foldl (processColumn O e cur)
          (DriftReport.init e.reference_period now e.reference_data.nRows
            cur.nRows now, g)).1 := rfl
    rw [hrepr]
    unfold FlagInv at hinv
    rw [hinv, entriesFlag_iff]
    simp only [or_assoc]
  · intro rp cp rs cs ts
    rfl

/-- C4 witness: the hypothesis (distinct reference columns) holds and the
conclusion follows at a concrete engine, snapshot and random state. -/
theorem drift_c4_flag_iff_witness :
    engC3.reference_data.colNames.Nodup ∧
    (((engC3.detect_drift oracle0 dfC3cur "t" [0]).1.drift_detected = true ↔
      ((∃ p ∈ (engC3.detect_drift oracle0 dfC3cur "t" [0]).1.ks_tests,
          KSEntry.drift_detected p.2 = true) ∨
       (∃ p ∈ (engC3.detect_drift oracle0 dfC3cur "t"
          [0]).1.wasserstein_tests, WSEntry.drift_detected p.2 = true) ∨
       (∃ p ∈ (engC3.detect_drift oracle0 dfC3cur "t" [0]).1.psi_tests,
          PSIEntry.drift_detected p.2 = true) ∨
       (∃ p ∈ (engC3.detect_drift oracle0 dfC3cur "t"
          [0]).1.chi_square_tests, ChiEntry.drift_detected p.2 = true) ∨
       (engC3.detect_drift oracle0 dfC3cur "t" [0]).1.missing_columns ≠
         [])) ∧
     ∀ (rp cp : String) (rs cs : Nat) (ts : String),
       (DriftReport.init rp cp rs cs ts).drift_detected = false) :=
  ⟨by decide, drift_c4_flag_iff oracle0 engC3 dfC3cur "t" [0] (by decide)⟩


/-! Null results for non-applicable tests and their omission from the
report. -/

theorem ks_test_null (O : Oracles) (e : DriftDetectionEngine)
    (cur : DataFrame) (col : String)
    (h : e.reference_data.lookup col = none ∨
      ∃ vs, e.reference_data.lookup col = some (.categorical vs)) :
    e.ks_test O cur col = .ok none := by
  unfold DriftDetectionEngine.ks_test
  rcases h with h | ⟨vs, h⟩ <;> rw [h]

theorem wasserstein_distance_null (e : DriftDetectionEngine)
    (cur : DataFrame) (col : String) (g : RNG)
    (h : e.reference_data.lookup col = none ∨
      ∃ vs, e.reference_data.lookup col = some (.categorical vs)) :
    e.wasserstein_distance cur col g = (.ok none, g) := by
  unfold DriftDetectionEngine.wasserstein_distance
  rcases h with h | ⟨vs, h⟩ <;> rw [h]

theorem psi_null (O : Oracles) (e : DriftDetectionEngine)
    (cur : DataFrame) (col : String)
    (h : e.reference_data.lookup col = none ∨
      ∃ vs, e.reference_data.lookup col = some (.categorical vs)) :
    e.population_stability_index O cur col = .ok none := by
  unfold DriftDetectionEngine.population_stability_index
  rcases h with h | ⟨vs, h⟩ <;> rw [h]

theorem chi_square_test_null (O : Oracles) (e : DriftDetectionEngine)
    (cur : DataFrame) (col : String)
    (h : e.reference_data.lookup col = none ∨
      ∃ vs, e.reference_data.lookup col = some (.numeric vs)) :
    e.chi_square_test O cur col = .ok none := by
  unfold DriftDetectionEngine.chi_square_test
  rcases h with h | ⟨vs, h⟩ <;> rw [h]

theorem processColumn_lookup_ne (O : Oracles) (e : DriftDetectionEngine)
    (cur : DataFrame) (r : DriftReport) (g : RNG) (c col : String)
    (hne : col ≠ c) :
    alookup col (processColumn O e cur (r, g) c).1.ks_tests =
      alookup col r.ks_tests ∧
    alookup col (processColumn O e cur (r, g) c).1.wasserstein_tests =
      alookup col r.wasserstein_tests ∧
    alookup col (processColumn O e cur (r, g) c).1.psi_tests =
      alookup col r.psi_tests ∧
    alookup col (processColumn O e cur (r, g) c).1.chi_square_tests =
      alookup col r.chi_square_tests := by
  unfold processColumn
  cases hc : cur.lookup c with
  | none => refine ⟨by simp, by simp, by simp, by simp⟩
  | some cv =>
    cases href : e.reference_data.lookup c with
    | none =>
        refine ⟨by rw [chiStep_ks_tests], by rw [chiStep_wasserstein_tests],
          by rw [chiStep_psi_tests], chiStep_own_lookup_ne O e cur c r col hne⟩
    | some rc =>
      cases rc with
      | categorical rvs =>
          refine ⟨by rw [chiStep_ks_tests],
            by rw [chiStep_wasserstein_tests], by rw [chiStep_psi_tests],
            chiStep_own_lookup_ne O e cur c r col hne⟩
      | numeric nvs =>
          refine ⟨?_, ?_, ?_, ?_⟩
          · rw [psiStep_ks_tests, wsStep_ks_tests]
            exact ksStep_own_lookup_ne O e cur c r col hne
          · rw [psiStep_wasserstein_tests]
            rw [wsStep_own_lookup_ne e cur c _ col hne]
            rw [ksStep_wasserstein_tests]
          · rw [psiStep_own_lookup_ne O e cur c _ col hne, wsStep_psi_tests,
              ksStep_psi_tests]
          · rw [psiStep_chi_square_tests, wsStep_chi_square_tests,
              ksStep_chi_square_tests]

theorem foldl_numdicts_preserved (O : Oracles) (e : DriftDetectionEngine)
    (cur : DataFrame) (col : String)
    (hcol : e.reference_data.lookup col = none ∨
      ∃ vs, e.reference_data.lookup col = some (.categorical vs)) :
    ∀ (cols : List String) (r : DriftReport) (g : RNG),
      alookup col ((cols.foldl (processColumn O e cur) (r, g)).1.ks_tests) =
        alookup col r.ks_tests ∧
      alookup col
        ((cols.foldl (processColumn O e cur) (r, g)).1.wasserstein_tests) =
        alookup col r.wasserstein_tests ∧
      alookup col ((cols.foldl (processColumn O e cur) (r, g)).1.psi_tests) =
        alookup col r.psi_tests := by
  intro cols
  induction cols with
  | nil => intro r g; exact ⟨rfl, rfl, rfl⟩
  | cons c tl ih =>
      intro r g
      rw [List.foldl_cons]
      have heta : processColumn O e cur (r, g) c =
          ((processColumn O e cur (r, g) c).1,
            (processColumn O e cur (r, g) c).2) := rfl
      rw [heta]
      obtain ⟨ih1, ih2, ih3⟩ := ih (processColumn O e cur (r, g) c).1
        (processColumn O e cur (r, g) c).2
      by_cases hcc : col = c
      · subst hcc
        have hstep : alookup col (processColumn O e cur (r, g) col).1.ks_tests
              = alookup col r.ks_tests ∧
            alookup col (processColumn O e cur (r, g)
              col).1.wasserstein_tests = alookup col r.wasserstein_tests ∧
            alookup col (processColumn O e cur (r, g) col).1.psi_tests =
              alookup col r.psi_tests := by
          unfold processColumn
          cases hc : cur.lookup col with
          | none => exact ⟨by simp, by simp, by simp⟩
          | some cv =>
              rcases hcol with h | ⟨vs, h⟩ <;> rw [h] <;>
                exact ⟨by rw [chiStep_ks_tests],
                  by rw [chiStep_wasserstein_tests],
                  by rw [chiStep_psi_tests]⟩
        exact ⟨ih1.trans hstep.1, ih2.trans hstep.2.1, ih3.trans hstep.2.2⟩
      · obtain ⟨h1, h2, h3, _⟩ := processColumn_lookup_ne O e cur r g c col hcc
        exact ⟨ih1.trans h1, ih2.trans h2, ih3.trans h3⟩

theorem foldl_chidict_preserved (O : Oracles) (e : DriftDetectionEngine)
    (cur : DataFrame) (col : String)
    (hcol : e.reference_data.lookup col = none ∨
      ∃ vs, e.reference_data.lookup col = some (.numeric vs)) :
    ∀ (cols : List String) (r : DriftReport) (g : RNG),
      alookup col
        ((cols.foldl (processColumn O e cur) (r, g)).1.chi_square_tests) =
        alookup col r.chi_square_tests := by
  intro cols
  induction cols with
  | nil => intro r g; rfl
  | cons c tl ih =>
      intro r g
      rw [List.foldl_cons]
      have heta : processColumn O e cur (r, g) c =
          ((processColumn O e cur (r, g) c).1,
            (processColumn O e cur (r, g) c).2) := rfl
      rw [heta]
      have ihx := ih (processColumn O e cur (r, g) c).1
        (processColumn O e cur (r, g) c).2
      by_cases hcc : col = c
      · subst hcc
        have hstep : alookup col (processColumn O e cur (r, g)
              col).1.chi_square_tests = alookup col r.chi_square_tests := by
          unfold processColumn
          cases hc : cur.lookup col with
          | none => simp
          | some cv =>
              rcases hcol with h | ⟨vs, h⟩ <;> rw [h]
              · have hnull : e.chi_square_test O cur col = .ok none :=
                  chi_square_test_null O e cur col (Or.inl h)
                unfold chiStep
                rw [hnull]
              · rw [psiStep_chi_square_tests, wsStep_chi_square_tests,
                  ksStep_chi_square_tests]
        exact ihx.trans hstep
      · obtain ⟨_, _, _, h4⟩ := processColumn_lookup_ne O e cur r g c col hcc
        exact ihx.trans h4

/-- C6: KS, Wasserstein and PSI applied to a column absent from the
reference or with a categorical reference column return the null result
(and detect_drift records no entry for it); chi-square applied to a
column absent from the reference or with a numeric reference column
likewise returns null and is omitted from the report. -/
theorem drift_c6_not_applicable :
    ∀ (O : Oracles) (e : DriftDetectionEngine) (cur : DataFrame)
      (col now : String) (g : RNG),
      ((e.reference_data.lookup col = none ∨
          ∃ vs, e.reference_data.lookup col = some (.categorical vs)) →
        e.ks_test O cur col = .ok none ∧
        e.wasserstein_distance cur col g = (.ok none, g) ∧
        e.population_stability_index O cur col = .ok none ∧
        alookup col (e.detect_drift O cur now g).1.ks_tests = none ∧
        alookup col (e.detect_drift O cur now g).1.wasserstein_tests =
          none ∧
        alookup col (e.detect_drift O cur now g).1.psi_tests = none) ∧
      ((e.reference_data.lookup col = none ∨
          ∃ vs, e.reference_data.lookup col = some (.numeric vs)) →
        e.chi_square_test O cur col = .ok none ∧
        alookup col (e.detect_drift O cur now g).1.chi_square_tests =
          none) := by
  intro O e cur col now g
  constructor
  · intro h
    obtain ⟨h1, h2, h3⟩ := foldl_numdicts_preserved O e cur col h
      e.reference_data.colNames
      (DriftReport.init e.reference_period now e.reference_data.nRows
        cur.nRows now) g
    exact ⟨ks_test_null O e cur col h, wasserstein_distance_null e cur col
      g h, psi_null O e cur col h, h1, h2, h3⟩
  · intro h
    have h4 := foldl_chidict_preserved O e cur col h
      e.reference_data.colNames
      (DriftReport.init e.reference_period now e.reference_data.nRows
        cur.nRows now) g
    exact ⟨chi_square_test_null O e cur col h, h4⟩

/-- C6 witness: for a column absent from the concrete reference, the
hypotheses hold and both conclusions follow. -/
theorem drift_c6_not_applicable_witness :
    (engC3.reference_data.lookup "zz" = none) ∧
    (engC3.ks_test oracle0 dfC3cur "zz" = .ok none ∧
      engC3.wasserstein_distance dfC3cur "zz" [0] = (.ok none, [0]) ∧
      engC3.population_stability_index oracle0 dfC3cur "zz" = .ok none ∧
      alookup "zz" (engC3.detect_drift oracle0 dfC3cur "t"
        [0]).1.ks_tests = none ∧
      alookup "zz" (engC3.detect_drift oracle0 dfC3cur "t"
        [0]).1.wasserstein_tests = none ∧
      alookup "zz" (engC3.detect_drift oracle0 dfC3cur "t"
        [0]).1.psi_tests = none) ∧
    (engC3.chi_square_test oracle0 dfC3cur "zz" = .ok none ∧
      alookup "zz" (engC3.detect_drift oracle0 dfC3cur "t"
        [0]).1.chi_square_tests = none) :=
  ⟨by decide,
    (drift_c6_not_applicable oracle0 engC3 dfC3cur "zz" "t" [0]).1
      (Or.inl (by decide)),
    (drift_c6_not_applicable oracle0 engC3 dfC3cur "zz" "t" [0]).2
      (Or.inl (by decide))⟩


/-! Chi-square failure recovery and per-column independence. -/

theorem chi_square_test_err (O : Oracles) (e : DriftDetectionEngine)
    (cur : DataFrame) (col : String) (rvs : List String) (cc : Col)
    (href : e.reference_data.lookup col = some (.categorical rvs))
    (hcur : cur.lookup col = some cc)
    (hchi : O.chi2Contingency (contingencyTable rvs cc.catKeys) =
      .error ()) :
    e.chi_square_test O cur col = .ok none := by
  unfold DriftDetectionEngine.chi_square_test
  simp only [href, hcur, hchi]

theorem chi_square_test_ok (O : Oracles) (e : DriftDetectionEngine)
    (cur : DataFrame) (col : String) (rvs : List String) (cc : Col)
    (st pv : ℚ)
    (href : e.reference_data.lookup col = some (.categorical rvs))
    (hcur : cur.lookup col = some cc)
    (hchi : O.chi2Contingency (contingencyTable rvs cc.catKeys) =
      .ok (st, pv)) :
    e.chi_square_test O cur col = .ok (some (st, pv)) := by
  unfold DriftDetectionEngine.chi_square_test
  simp only [href, hcur, hchi]

theorem processColumn_chi_self_err (O : Oracles)
    (e : DriftDetectionEngine) (cur : DataFrame) (r : DriftReport)
    (g : RNG) (col : String) (rvs : List String) (cc : Col)
    (href : e.reference_data.lookup col = some (.categorical rvs))
    (hcur : cur.lookup col = some cc)
    (hchi : O.chi2Contingency (contingencyTable rvs cc.catKeys) =
      .error ()) :
    (processColumn O e cur (r, g) col).1.chi_square_tests =
      r.chi_square_tests := by
  unfold processColumn
  simp only [hcur, href]
  unfold chiStep
  rw [chi_square_test_err O e cur col rvs cc href hcur hchi]

theorem processColumn_chi_self_ok (O : Oracles) (e : DriftDetectionEngine)
    (cur : DataFrame) (r : DriftReport) (g : RNG) (col : String)
    (rvs : List String) (cc : Col) (st pv : ℚ)
    (href : e.reference_data.lookup col = some (.categorical rvs))
    (hcur : cur.lookup col = some cc)
    (hchi : O.chi2Contingency (contingencyTable rvs cc.catKeys) =
      .ok (st, pv)) :
    alookup col (processColumn O e cur (r, g) col).1.chi_square_tests =
      some ⟨round6 st, round6 pv, decide (pv < e.threshold_ks),
        interp (decide (pv < e.threshold_ks))⟩ := by
  unfold processColumn
  simp only [hcur, href]
  unfold chiStep
  rw [chi_square_test_ok O e cur col rvs cc st pv href hcur hchi]
  rw [addChi_chi_square_tests]
  exact alookup_dictSet_self _

theorem foldl_chi_self_err (O : Oracles) (e : DriftDetectionEngine)
    (cur : DataFrame) (col : String) (rvs : List String) (cc : Col)
    (href : e.reference_data.lookup col = some (.categorical rvs))
    (hcur : cur.lookup col = some cc)
    (hchi : O.chi2Contingency (contingencyTable rvs cc.catKeys) =
      .error ()) :
    ∀ (cols : List String) (r : DriftReport) (g : RNG),
      alookup col
        ((cols.foldl (processColumn O e cur) (r, g)).1.chi_square_tests) =
        alookup col r.chi_square_tests := by
  intro cols
  induction cols with
  | nil => intro r g; rfl
  | cons c tl ih =>
      intro r g
      rw [List.foldl_cons]
      have heta : processColumn O e cur (r, g) c =
          ((processColumn O e cur (r, g) c).1,
            (processColumn O e cur (r, g) c).2) := rfl
      rw [heta]
      have ihx := ih (processColumn O e cur (r, g) c).1
        (processColumn O e cur (r, g) c).2
      by_cases hcc : col = c
      · subst hcc
        rw [ihx,
          processColumn_chi_self_err O e cur r g col rvs cc href hcur hchi]
      · obtain ⟨_, _, _, h4⟩ :=
          processColumn_lookup_ne O e cur r g c col hcc
        exact ihx.trans h4

theorem foldl_chi_notmem (O : Oracles) (e : DriftDetectionEngine)
    (cur : DataFrame) (col : String) :
    ∀ (cols : List String) (r : DriftReport) (g : RNG), col ∉ cols →
      alookup col
        ((cols.foldl (processColumn O e cur) (r, g)).1.chi_square_tests) =
        alookup col r.chi_square_tests := by
  intro cols
  induction cols with
  | nil => intro r g _; rfl
  | cons c tl ih =>
      intro r g hmem
      rw [List.foldl_cons]
      have heta : processColumn O e cur (r, g) c =
          ((processColumn O e cur (r, g) c).1,
            (processColumn O e cur (r, g) c).2) := rfl
      rw [heta]
      have hne : col ≠ c := fun h => hmem (h ▸ List.mem_cons_self c tl)
      obtain ⟨_, _, _, h4⟩ := processColumn_lookup_ne O e cur r g c col hne
      exact (ih _ _ (fun h => hmem (List.mem_cons_of_mem c h))).trans h4

theorem foldl_chi_mem_ok (O : Oracles) (e : DriftDetectionEngine)
    (cur : DataFrame) (col : String) (rvs : List String) (cc : Col)
    (st pv : ℚ)
    (href : e.reference_data.lookup col = some (.categorical rvs))
    (hcur : cur.lookup col = some cc)
    (hchi : O.chi2Contingency (contingencyTable rvs cc.catKeys) =
      .ok (st, pv)) :
    ∀ (cols : List String) (r : DriftReport) (g : RNG), col ∈ cols →
      cols.Nodup →
      alookup col
        ((cols.foldl (processColumn O e cur) (r, g)).1.chi_square_tests) =
        some ⟨round6 st, round6 pv, decide (pv < e.threshold_ks),
          interp (decide (pv < e.threshold_ks))⟩ := by
  intro cols
  induction cols with
  | nil => intro r g hmem; exact absurd hmem (List.not_mem_nil col)
  | cons c tl ih =>
      intro r g hmem hnd
      rw [List.foldl_cons]
      have heta : processColumn O e cur (r, g) c =
          ((processColumn O e cur (r, g) c).1,
            (processColumn O e cur (r, g) c).2) := rfl
      rw [heta]
      by_cases hcc : col = c
      · subst hcc
        have hnotmem : col ∉ tl := (List.nodup_cons.mp hnd).1
        rw [foldl_chi_notmem O e cur col tl _ _ hnotmem]
        exact processColumn_chi_self_ok O e cur r g col rvs cc st pv href
          hcur hchi
      · have hmem2 : col ∈ tl := by
          rcases List.mem_cons.mp hmem with h | h
          · exact absurd h hcc
          · exact h
        exact ih _ _ hmem2 (List.nodup_cons.mp hnd).2

/-- C8: when the chi-square computation on a categorical column's
contingency table fails (degenerate table), chi_square_test returns the
null pair, detect_drift records no chi-square entry for that column, and
every other categorical column whose chi-square succeeds still appears in
the returned report. -/
theorem drift_c8_chi_degenerate :
    ∀ (O : Oracles) (e : DriftDetectionEngine) (cur : DataFrame)
      (col now : String) (g : RNG) (rvs : List String) (cc : Col),
      e.reference_data.lookup col = some (.categorical rvs) →
      cur.lookup col = some cc →
      O.chi2Contingency (contingencyTable rvs cc.catKeys) = .error () →
      (e.chi_square_test O cur col = .ok none ∧
       alookup col (e.detect_drift O cur now g).1.chi_square_tests =
         none ∧
       ∀ (c2 : String) (rvs2 : List String) (cc2 : Col) (st pv : ℚ),
         e.reference_data.colNames.Nodup →
         c2 ∈ e.reference_data.colNames →
         e.reference_data.lookup c2 = some (.categorical rvs2) →
         cur.lookup c2 = some cc2 →
         O.chi2Contingency (contingencyTable rvs2 cc2.catKeys) =
           .ok (st, pv) →
         alookup c2 (e.detect_drift O cur now g).1.chi_square_tests =
           some ⟨round6 st, round6 pv, decide (pv < e.threshold_ks),
             interp (decide (pv < e.threshold_ks))⟩) := by
  intro O e cur col now g rvs cc href hcur hchi
  refine ⟨chi_square_test_err O e cur col rvs cc href hcur hchi, ?_, ?_⟩
  · exact foldl_chi_self_err O e cur col rvs cc href hcur hchi
      e.reference_data.colNames _ g
  · intro c2 rvs2 cc2 st pv hnd hmem href2 hcur2 hchi2
    exact foldl_chi_mem_ok O e cur c2 rvs2 cc2 st pv href2 hcur2 hchi2
      e.reference_data.colNames _ g hmem hnd

/-- C8 witness: at a concrete engine with two categorical columns, the
degenerate table of column t yields the null result and no entry, while
column u's successful chi-square still appears. -/
theorem drift_c8_chi_degenerate_witness :
    (engC8.reference_data.lookup "t" =
        some (.categorical ["up", "down"]) ∧
      dfC8cur.lookup "t" = some (.categorical ["up"]) ∧
      oracleC8.chi2Contingency
        (contingencyTable ["up", "down"] (Col.categorical
          ["up"]).catKeys) = .error ()) ∧
    (engC8.chi_square_test oracleC8 dfC8cur "t" = .ok none ∧
      alookup "t" (engC8.detect_drift oracleC8 dfC8cur "now"
        []).1.chi_square_tests = none ∧
      alookup "u" (engC8.detect_drift oracleC8 dfC8cur "now"
        []).1.chi_square_tests =
        some ⟨round6 2, round6 (1/2),
          decide ((1:ℚ)/2 < engC8.threshold_ks),
          interp (decide ((1:ℚ)/2 < engC8.threshold_ks))⟩) := by
  have hmain := drift_c8_chi_degenerate oracleC8 engC8 dfC8cur "t" "now" []
    ["up", "down"] (.categorical ["up"]) (by decide) (by decide) (by rfl)
  refine ⟨⟨by decide, by decide, by rfl⟩, hmain.1, hmain.2.1, ?_⟩
  exact hmain.2.2 "u" ["a"] (.categorical ["a"]) 2 (1/2) (by decide)
    (by decide) (by decide) (by decide) (by rfl)


/-! Which report fields can depend on the ambient random state. -/

theorem nonWsView_eq_iff (r1 r2 : DriftReport) :
    nonWsView r1 = nonWsView r2 ↔
      (r1.reference_period = r2.reference_period ∧
       r1.current_period = r2.current_period ∧
       r1.reference_size = r2.reference_size ∧
       r1.current_size = r2.current_size ∧
       r1.timestamp = r2.timestamp ∧
       r1.ks_tests = r2.ks_tests ∧
       r1.psi_tests = r2.psi_tests ∧
       r1.chi_square_tests = r2.chi_square_tests ∧
       r1.missing_columns = r2.missing_columns ∧
       r1.overall_severity = r2.overall_severity) := by
  unfold nonWsView
  simp [Prod.mk.injEq]

theorem ksStep_ks_of_eq (O : Oracles) (e : DriftDetectionEngine)
    (cur : DataFrame) (c : String) {r1 r2 : DriftReport}
    (h : r1.ks_tests = r2.ks_tests) :
    (ksStep O e cur c r1).ks_tests = (ksStep O e cur c r2).ks_tests := by
  unfold ksStep
  cases e.ks_test O cur c with
  | error err => exact h
  | ok ov => cases ov with
    | none => exact h
    | some sp => rw [addKs_ks_tests, addKs_ks_tests, h]

theorem psiStep_psi_of_eq (O : Oracles) (e : DriftDetectionEngine)
    (cur : DataFrame) (c : String) {r1 r2 : DriftReport}
    (h : r1.psi_tests = r2.psi_tests) :
    (psiStep O e cur c r1).psi_tests = (psiStep O e cur c r2).psi_tests := by
  unfold psiStep
  cases e.population_stability_index O cur c with
  | error err => exact h
  | ok ov => cases ov with
    | none => exact h
    | some v => rw [addPsi_psi_tests, addPsi_psi_tests, h]

theorem psiStep_severity_of_eq (O : Oracles) (e : DriftDetectionEngine)
    (cur : DataFrame) (c : String) {r1 r2 : DriftReport}
    (h : r1.overall_severity = r2.overall_severity) :
    (psiStep O e cur c r1).overall_severity =
      (psiStep O e cur c r2).overall_severity := by
  unfold psiStep
  cases e.population_stability_index O cur c with
  | error err => exact h
  | ok ov => cases ov with
    | none => exact h
    | some v => rw [addPsi_overall_severity, addPsi_overall_severity, h]

theorem chiStep_chi_of_eq (O : Oracles) (e : DriftDetectionEngine)
    (cur : DataFrame) (c : String) {r1 r2 : DriftReport}
    (h : r1.chi_square_tests = r2.chi_square_tests) :
    (chiStep O e cur c r1).chi_square_tests =
      (chiStep O e cur c r2).chi_square_tests := by
  unfold chiStep
  cases e.chi_square_test O cur c with
  | error err => exact h
  | ok ov => cases ov with
    | none => exact h
    | some sp => rw [addChi_chi_square_tests, addChi_chi_square_tests, h]

theorem processColumn_nonWs (O : Oracles) (e : DriftDetectionEngine)
    (cur : DataFrame) (c : String) (r1 r2 : DriftReport) (g1 g2 : RNG)
    (h : nonWsView r1 = nonWsView r2) :
    nonWsView (processColumn O e cur (r1, g1) c).1 =
      nonWsView (processColumn O e cur (r2, g2) c).1 := by
  rw [nonWsView_eq_iff] at h ⊢
  obtain ⟨h1, h2, h3, h4, h5, hks, hpsi, hchi, hmiss, hsev⟩ := h
  unfold processColumn
  cases hc : cur.lookup c with
  | none =>
      refine ⟨by simp [h1], by simp [h2], by simp [h3], by simp [h4],
        by simp [h5], by simp [hks], by simp [hpsi], by simp [hchi],
        by simp [hmiss], by simp⟩
  | some cv =>
    cases href : e.reference_data.lookup c with
    | none =>
        refine ⟨by simp [h1], by simp [h2], by simp [h3], by simp [h4],
          by simp [h5], by simp [hks], by simp [hpsi],
          chiStep_chi_of_eq O e cur c hchi, by simp [hmiss], by simp [hsev]⟩
    | some rc =>
      cases rc with
      | categorical rvs =>
          refine ⟨by simp [h1], by simp [h2], by simp [h3], by simp [h4],
            by simp [h5], by simp [hks], by simp [hpsi],
            chiStep_chi_of_eq O e cur c hchi, by simp [hmiss],
            by simp [hsev]⟩
      | numeric nvs =>
          refine ⟨by simp [h1], by simp [h2], by simp [h3], by simp [h4],
            by simp [h5], ?_, ?_, by simp [hchi], by simp [hmiss], ?_⟩
          · rw [psiStep_ks_tests, psiStep_ks_tests, wsStep_ks_tests,
              wsStep_ks_tests]
            exact ksStep_ks_of_eq O e cur c hks
          · apply psiStep_psi_of_eq
            rw [wsStep_psi_tests, wsStep_psi_tests, ksStep_psi_tests,
              ksStep_psi_tests]
            exact hpsi
          · apply psiStep_severity_of_eq
            rw [wsStep_overall_severity, wsStep_overall_severity,
              ksStep_overall_severity, ksStep_overall_severity]
            exact hsev

theorem foldl_nonWs (O : Oracles) (e : DriftDetectionEngine)
    (cur : DataFrame) :
    ∀ (cols : List String) (r1 r2 : DriftReport) (g1 g2 : RNG),
      nonWsView r1 = nonWsView r2 →
      nonWsView ((cols.foldl (processColumn O e cur) (r1, g1)).1) =
        nonWsView ((cols.foldl (processColumn O e cur) (r2, g2)).1) := by
  intro cols
  induction cols with
  | nil => intro r1 r2 g1 g2 h; simpa using h
  | cons c tl ih =>
      intro r1 r2 g1 g2 h
      rw [List.foldl_cons, List.foldl_cons]
      have heta1 : processColumn O e cur (r1, g1) c =
          ((processColumn O e cur (r1, g1) c).1,
            (processColumn O e cur (r1, g1) c).2) := rfl
      have heta2 : processColumn O e cur (r2, g2) c =
          ((processColumn O e cur (r2, g2) c).1,
            (processColumn O e cur (r2, g2) c).2) := rfl
      rw [heta1, heta2]
      exact ih _ _ _ _ (processColumn_nonWs O e cur c r1 r2 g1 g2 h)

/-- C3 (amended): the wasserstein subsampling reads the ambient global
random state (no seed parameter exists and it cannot be disabled), and
that state influences only the Wasserstein results and, through their
drift flags, the report's overall drift_detected: every other field of
the report — the KS, PSI and chi-square collections, the missing-columns
list, the overall severity, the periods, sizes and timestamp — is
identical across any two random states. -/
theorem drift_c3_rng_scope :
    ∀ (O : Oracles) (e : DriftDetectionEngine) (cur : DataFrame)
      (now : String) (g1 g2 : RNG),
      (e.detect_drift O cur now g1).1.ks_tests =
        (e.detect_drift O cur now g2).1.ks_tests ∧
      (e.detect_drift O cur now g1).1.psi_tests =
        (e.detect_drift O cur now g2).1.psi_tests ∧
      (e.detect_drift O cur now g1).1.chi_square_tests =
        (e.detect_drift O cur now g2).1.chi_square_tests ∧
      (e.detect_drift O cur now g1).1.missing_columns =
        (e.detect_drift O cur now g2).1.missing_columns ∧
      (e.detect_drift O cur now g1).1.overall_severity =
        (e.detect_drift O cur now g2).1.overall_severity ∧
      (e.detect_drift O cur now g1).1.reference_period =
        (e.detect_drift O cur now g2).1.reference_period ∧
      (e.detect_drift O cur now g1).1.current_period =
        (e.detect_drift O cur now g2).1.current_period ∧
      (e.detect_drift O cur now g1).1.reference_size =
        (e.detect_drift O cur now g2).1.reference_size ∧
      (e.detect_drift O cur now g1).1.current_size =
        (e.detect_drift O cur now g2).1.current_size ∧
      (e.detect_drift O cur now g1).1.timestamp =
        (e.detect_drift O cur now g2).1.timestamp := by
  intro O e cur now g1 g2
  have h := foldl_nonWs O e cur e.reference_data.colNames
    (DriftReport.init e.reference_period now e.reference_data.nRows
      cur.nRows now)
    (DriftReport.init e.reference_period now e.reference_data.nRows
      cur.nRows now) g1 g2 rfl
  have hr1 : (e.detect_drift O cur now g1).1 =
      (e.reference_data.colNames.foldl (processColumn O e cur)
        (DriftReport.init e.reference_period now e.reference_data.nRows
          cur.nRows now, g1)).1 := rfl
  have hr2 : (e.detect_drift O cur now g2).1 =
      (e.reference_data.colNames.foldl (processColumn O e cur)
        (DriftReport.init e.reference_period now e.reference_data.nRows
          cur.nRows now, g2)).1 := rfl
  rw [hr1, hr2]
  rw [nonWsView_eq_iff] at h
  tauto

/-- C3 counterexample: two detect_drift runs on byte-identical inputs but
different ambient random states return different reports (their
Wasserstein entries differ), so repeated runs are not reproducible and no
seed argument exists to fix them. -/
theorem drift_c3_counterexample :
    (engC3.detect_drift oracle0 dfC3cur "t" [0]).1.wasserstein_tests =
      [("x", ⟨0, false, "NO_DRIFT"⟩)] ∧
    (engC3.detect_drift oracle0 dfC3cur "t" [1]).1.wasserstein_tests =
      [("x", ⟨100, true, "DRIFT"⟩)] ∧
    (engC3.detect_drift oracle0 dfC3cur "t" [0]).1 ≠
      (engC3.detect_drift oracle0 dfC3cur "t" [1]).1 := by
  have hws0 : (engC3.detect_drift oracle0 dfC3cur "t"
      [0]).1.wasserstein_tests = [("x", ⟨0, false, "NO_DRIFT"⟩)] := by
    with_unfolding_all rfl
  have hws1 : (engC3.detect_drift oracle0 dfC3cur "t"
      [1]).1.wasserstein_tests = [("x", ⟨100, true, "DRIFT"⟩)] := by
    with_unfolding_all rfl
  refine ⟨hws0, hws1, ?_⟩
  intro h
  have hws := congrArg DriftReport.wasserstein_tests h
  rw [hws0, hws1] at hws
  exact absurd hws (by decide)


/-! The PSI of identical samples is exactly zero, whatever the log. -/

theorem zipSelfSum (l : List ℚ) (f : ℚ × ℚ → ℚ) :
    ((l.zip l).map (fun p => (p.1 - p.2) * f p)).sum = 0 := by
  induction l with
  | nil => rfl
  | cons x xs ih => simp [List.zip_cons_cons, ih]

theorem psiCalc_self (log : ℚ → ℚ) (xs : List ℚ) : psiCalc log xs xs = 0 := by
  unfold psiCalc
  exact zipSelfSum _ _

/-- C1 (code bug): with reference columns a (missing from the current
snapshot, recorded first, severity CRITICAL) and b (identical in both
datasets, so PSI = 0 for every possible np.log, flagged because
threshold_psi = -1), detect_drift returns overall_severity HIGH: the
unconditional assignment in add_psi downgrades the CRITICAL set by the
missing column, violating the spec's monotone-escalation invariant.  The
result holds for every oracle bundle and every ambient random state. -/
theorem drift_c1_severity_downgrade :
    ∀ (O : Oracles) (g : RNG),
      (engC1.detect_drift O dfC1cur "t" g).1.overall_severity = "HIGH" ∧
      (engC1.detect_drift O dfC1cur "t" g).1.missing_columns = ["a"] := by
  intro O g
  have hrepr : (engC1.detect_drift O dfC1cur "t" g).1 =
      (processColumn O engC1 dfC1cur
        (processColumn O engC1 dfC1cur
          (DriftReport.init engC1.reference_period "t"
            engC1.reference_data.nRows dfC1cur.nRows "t", g) "a") "b").1 :=
    rfl
  have h1 : processColumn O engC1 dfC1cur
      (DriftReport.init engC1.reference_period "t"
        engC1.reference_data.nRows dfC1cur.nRows "t", g) "a" =
      ((DriftReport.init engC1.reference_period "t"
        engC1.reference_data.nRows dfC1cur.nRows
        "t").add_missing_column "a", g) := rfl
  have hpsi : engC1.population_stability_index O dfC1cur "b" =
      .ok (some (psiCalc O.npLog [0, 1] [0, 1])) := by
    with_unfolding_all rfl
  have hpsi0 : engC1.population_stability_index O dfC1cur "b" =
      .ok (some 0) := by
    rw [hpsi, psiCalc_self]
  have hflag : decide ((0:ℚ) > engC1.threshold_psi) = true := by
    with_unfolding_all rfl
  have hb : ∀ (r : DriftReport) (g2 : RNG),
      (processColumn O engC1 dfC1cur (r, g2) "b").1.overall_severity =
        "HIGH" ∧
      (processColumn O engC1 dfC1cur (r, g2) "b").1.missing_columns =
        r.missing_columns := by
    intro r g2
    have hcur : dfC1cur.lookup "b" = some (.numeric [0, 1]) := rfl
    have href : engC1.reference_data.lookup "b" =
      some (.numeric [0, 1]) := rfl
    unfold processColumn
    simp only [hcur, href]
    constructor
    · show (psiStep O engC1 dfC1cur "b" _).overall_severity = "HIGH"
      unfold psiStep
      rw [hpsi0]
      rw [addPsi_overall_severity, hflag]
      rfl
    · show (psiStep O engC1 dfC1cur "b" _).missing_columns =
        r.missing_columns
      simp
  rw [hrepr, h1]
  obtain ⟨hs, hm⟩ := hb ((DriftReport.init engC1.reference_period "t"
    engC1.reference_data.nRows dfC1cur.nRows "t").add_missing_column "a") g
  refine ⟨hs, ?_⟩
  rw [hm]
  rfl


/-! PSI refinement: the embedded numpy pipeline equals the specified
formula when the combined sample spans a non-degenerate range. -/

theorem getD_range_map (f : Nat → ℚ) (n i : Nat) (h : i < n) :
    ((List.range n).map f).getD i 0 = f i := by
  rw [List.getD_eq_getElem?_getD, List.getElem?_map, List.getElem?_range h]
  rfl

theorem binEdges10_getD (V : List ℚ) (hne : V.isEmpty = false)
    (hlo : listMin V ≠ listMax V) (i : Nat) (h : i < 11) :
    (binEdges10 V).getD i 0 =
      listMin V + i * (listMax V - listMin V) / 10 := by
  unfold binEdges10
  simp only [hne, Bool.false_eq_true, if_false, if_neg hlo]
  exact getD_range_map _ 11 i h

theorem listMin_nil : listMin [] = 0 := rfl

theorem listMax_nil : listMax [] = 0 := rfl

theorem psiCalc_eq_spec (log : ℚ → ℚ) (rvs cvs : List ℚ)
    (h : listMin (rvs ++ cvs) < listMax (rvs ++ cvs)) :
    psiCalc log rvs cvs = psiSpecFormula log rvs cvs := by
  have hne : (rvs ++ cvs).isEmpty = false := by
    cases hv : rvs ++ cvs with
    | nil =>
        rw [hv] at h
        exact absurd h (by rw [listMin_nil, listMax_nil]; exact lt_irrefl 0)
    | cons a l => rfl
  have hlo : listMin (rvs ++ cvs) ≠ listMax (rvs ++ cvs) := ne_of_lt h
  simp only [psiCalc, psiSpecFormula, histCounts]
  rw [List.map_map, List.map_map, List.zip_map', List.map_map]
  apply congrArg List.sum
  apply List.map_congr_left
  intro i hi
  rw [List.mem_range] at hi
  simp only [Function.comp]
  unfold specBinPct
  by_cases h9 : i = 9
  · subst h9
    have e9 := binEdges10_getD (rvs ++ cvs) hne hlo 9 (by omega)
    have e10 := binEdges10_getD (rvs ++ cvs) hne hlo 10 (by omega)
    simp only [if_pos, e9, e10, Nat.cast_ofNat, mul_div_assoc]
  · have ei := binEdges10_getD (rvs ++ cvs) hne hlo i (by omega)
    have ei1 := binEdges10_getD (rvs ++ cvs) hne hlo (i + 1) (by omega)
    simp only [if_neg h9, ei, ei1, Nat.cast_add, Nat.cast_one, mul_div_assoc]


/-- C7: for a numeric reference column present (and numeric) in the
current snapshot whose combined samples span a non-degenerate range, the
engine's PSI value is exactly the specified computation: 10 equal-width
bins spanning the combined min/max, per-bin counts divided by each
sample's length, and the smoothed log-weighted sum with constant 1e-10. -/
theorem drift_c7_psi_formula :
    ∀ (O : Oracles) (df cur : DataFrame) (t1 t2 t3 : ℚ) (p col : String)
      (rvs cvs : List ℚ),
      df.lookup col = some (.numeric rvs) →
      cur.lookup col = some (.numeric cvs) →
      listMin (rvs ++ cvs) < listMax (rvs ++ cvs) →
      (DriftDetectionEngine.init df t1 t2 t3 p).population_stability_index
        O cur col = .ok (some (psiSpecFormula O.npLog rvs cvs)) := by
  intro O df cur t1 t2 t3 p col rvs cvs href hcur hspan
  have hstats : getNumDist (calculateStatistics df) col = .ok rvs := by
    unfold getNumDist
    rw [alookup_calcStats, href]
    rfl
  have hget : getCurNum cur col = .ok cvs := by
    unfold getCurNum
    rw [hcur]
  show DriftDetectionEngine.population_stability_index _ _ _ _ = _
  unfold DriftDetectionEngine.population_stability_index
  simp only [DriftDetectionEngine.init, href, hstats, hget]
  rw [psiCalc_eq_spec O.npLog rvs cvs hspan]

/-- C7 witness: hypotheses hold at a concrete engine whose reference
column p is [0, 1] and whose current column is [2]. -/
theorem drift_c7_psi_formula_witness :
    (dfC7ref.lookup "p" = some (.numeric [0, 1]) ∧
      dfC7cur.lookup "p" = some (.numeric [2]) ∧
      listMin ([0, 1] ++ [2]) < listMax ([0, 1] ++ [2])) ∧
    (DriftDetectionEngine.init dfC7ref defaultThresholdKs
      defaultThresholdPsi defaultThresholdWasserstein
      "ref").population_stability_index oracle0 dfC7cur "p" =
      .ok (some (psiSpecFormula oracle0.npLog [0, 1] [2])) :=
  ⟨⟨by decide, by decide, by with_unfolding_all decide⟩,
    drift_c7_psi_formula oracle0 dfC7ref dfC7cur defaultThresholdKs
      defaultThresholdPsi defaultThresholdWasserstein "ref" "p" [0, 1] [2]
      (by decide) (by decide) (by with_unfolding_all decide)⟩


/-! JSON roundtrip, part 1: whitespace skipping and decimal digits. -/

theorem skipWs_cons_ws {c : Char} (h : isWsChar c = true) (l : List Char) :
    skipWs (c :: l) = skipWs l := by
  simp [skipWs, h]

theorem skipWs_cons_not {c : Char} (h : isWsChar c = false) (l : List Char) :
    skipWs (c :: l) = c :: l := by
  simp [skipWs, h]

theorem skipWs_append {ws : List Char}
    (h : ∀ c ∈ ws, isWsChar c = true) (l : List Char) :
    skipWs (ws ++ l) = skipWs l := by
  induction ws with
  | nil => rfl
  | cons c cs ih =>
      rw [List.cons_append, skipWs_cons_ws (h c (List.mem_cons_self c cs))]
      exact ih (fun x hx => h x (List.mem_cons_of_mem c hx))

theorem nlIndent_ws (d : Nat) : ∀ c ∈ nlIndent d, isWsChar c = true := by
  intro c hc
  unfold nlIndent at hc
  rcases List.mem_cons.mp hc with h | h
  · subst h
    decide
  · rw [List.eq_of_mem_replicate h]
    decide

theorem skipWs_nlIndent (d : Nat) (l : List Char) :
    skipWs (nlIndent d ++ l) = skipWs l :=
  skipWs_append (nlIndent_ws d) l

theorem parseV_ws_append (fuel : Nat) {ws : List Char}
    (h : ∀ c ∈ ws, isWsChar c = true) (l : List Char) :
    parseV fuel (ws ++ l) = parseV fuel l := by
  cases fuel with
  | zero => rfl
  | succ f =>
      unfold parseV
      rw [skipWs_append h]

theorem digitChar_toNat {n : Nat} (h : n < 10) :
    (digitChar n).toNat = 48 + n := by
  interval_cases n <;> decide

theorem digitChar_isDigit {n : Nat} (h : n < 10) :
    (digitChar n).isDigit = true := by
  interval_cases n <;> decide

theorem foldl_digits_acc (ds : List Char) :
    ∀ acc : Nat,
      ds.foldl (fun a c => a * 10 + (c.toNat - 48)) acc =
        acc * 10 ^ ds.length + digitsVal ds := by
  induction ds with
  | nil => intro acc; simp [digitsVal]
  | cons c cs ih =>
      intro acc
      have h1 := ih (acc * 10 + (c.toNat - 48))
      have h2 := ih (0 * 10 + (c.toNat - 48))
      simp only [List.foldl_cons, digitsVal] at h1 h2 ⊢
      rw [h1, h2, List.length_cons, pow_succ]
      ring_nf
      omega

theorem natDigitsAux_spec :
    ∀ (fuel n : Nat), n < fuel →
      (natDigitsAux fuel n ≠ [] ∧
       (∀ c ∈ natDigitsAux fuel n, c.isDigit = true) ∧
       digitsVal (natDigitsAux fuel n) = n) := by
  intro fuel
  induction fuel with
  | zero => intro n h; omega
  | succ f ih =>
      intro n hn
      unfold natDigitsAux
      by_cases h10 : n < 10
      · rw [if_pos h10]
        refine ⟨by simp, ?_, ?_⟩
        · intro c hc
          rw [List.mem_singleton] at hc
          subst hc
          exact digitChar_isDigit h10
        · simp [digitsVal, digitChar_toNat h10]
      · rw [if_neg h10]
        have hdiv : n / 10 < f := by omega
        obtain ⟨hne, hdig, hval⟩ := ih (n / 10) hdiv
        refine ⟨by simp [hne], ?_, ?_⟩
        · intro c hc
          rcases List.mem_append.mp hc with h | h
          · exact hdig c h
          · rw [List.mem_singleton] at h
            subst h
            exact digitChar_isDigit (Nat.mod_lt _ (by norm_num))
        · unfold digitsVal
          rw [List.foldl_append]
          have := foldl_digits_acc [digitChar (n % 10)]
            (digitsVal (natDigitsAux f (n / 10)))
          unfold digitsVal at this hval
          rw [this, hval]
          simp [digitsVal, digitChar_toNat (Nat.mod_lt n (by norm_num : (0:Nat) < 10))]
          omega

theorem natChars_ne_nil (n : Nat) : natChars n ≠ [] :=
  (natDigitsAux_spec (n + 1) n (Nat.lt_succ_self n)).1

theorem natChars_digits (n : Nat) : ∀ c ∈ natChars n, c.isDigit = true :=
  (natDigitsAux_spec (n + 1) n (Nat.lt_succ_self n)).2.1

theorem natChars_val (n : Nat) : digitsVal (natChars n) = n :=
  (natDigitsAux_spec (n + 1) n (Nat.lt_succ_self n)).2.2

theorem parseDigitsA_cons_not {c : Char} (h : c.isDigit = false)
    (cs : List Char) (acc : Nat) :
    parseDigitsA (c :: cs) acc = (acc, c :: cs) := by
  simp [parseDigitsA, h]

theorem parseDigitsA_append {ds : List Char}
    (h : ∀ c ∈ ds, c.isDigit = true) (rest : List Char) :
    ∀ acc : Nat, parseDigitsA (ds ++ rest) acc =
      parseDigitsA rest (ds.foldl (fun a c => a * 10 + (c.toNat - 48)) acc) := by
  induction ds with
  | nil => intro acc; rfl
  | cons c cs ih =>
      intro acc
      rw [List.cons_append]
      have step : parseDigitsA (c :: (cs ++ rest)) acc =
          parseDigitsA (cs ++ rest) (acc * 10 + (c.toNat - 48)) := by
        simp [parseDigitsA, h c (List.mem_cons_self c cs)]
      rw [step, ih (fun x hx => h x (List.mem_cons_of_mem c hx)),
        List.foldl_cons]

theorem numSafe_notDigitStart {rest : List Char}
    (h : numSafe rest = true) : notDigitStart rest = true := by
  cases rest with
  | nil => rfl
  | cons c cs =>
      simp [numSafe] at h
      simp [notDigitStart, h.1]

theorem parseDigitsA_natChars (n : Nat) {rest : List Char}
    (h : notDigitStart rest = true) :
    parseDigitsA (natChars n ++ rest) 0 = (n, rest) := by
  rw [parseDigitsA_append (natChars_digits n) rest 0]
  have hval := foldl_digits_acc (natChars n) 0
  rw [natChars_val] at hval
  rw [hval]
  cases rest with
  | nil => simp [parseDigitsA]
  | cons c cs =>
      have hc : c.isDigit = false := by
        cases hd : c.isDigit with
        | false => rfl
        | true =>
            exfalso
            simp [notDigitStart, hd] at h
      rw [parseDigitsA_cons_not hc]
      simp


/-! JSON roundtrip, part 2: fractional digits and numbers. -/

theorem parseFracA_cons_not {c : Char} (h : c.isDigit = false)
    (cs : List Char) (v s : ℚ) :
    parseFracA (c :: cs) v s = (v, c :: cs) := by
  simp [parseFracA, h]

theorem parseFracA_append {ds : List Char}
    (h : ∀ c ∈ ds, c.isDigit = true) :
    ∀ (rest : List Char) (v s : ℚ),
      parseFracA (ds ++ rest) v s =
        parseFracA rest (v + s * fval ds) (s / 10 ^ ds.length) := by
  induction ds with
  | nil => intro rest v s; simp [fval]
  | cons c cs ih =>
      intro rest v s
      rw [List.cons_append]
      have step : parseFracA (c :: (cs ++ rest)) v s =
          parseFracA (cs ++ rest) (v + ((c.toNat - 48 : Nat) : ℚ) * s)
            (s / 10) := by
        simp [parseFracA, h c (List.mem_cons_self c cs)]
      rw [step, ih (fun x hx => h x (List.mem_cons_of_mem c hx))]
      have e1 : v + ((c.toNat - 48 : Nat) : ℚ) * s + s / 10 * fval cs =
          v + s * fval (c :: cs) := by
        have hf : fval (c :: cs) = ((c.toNat - 48 : Nat) : ℚ) + fval cs / 10 :=
          rfl
        rw [hf]
        ring
      have e2 : s / 10 / 10 ^ cs.length = s / 10 ^ (c :: cs).length := by
        rw [List.length_cons, pow_succ]
        ring
      rw [e1, e2]

theorem digitsVal_cons (c : Char) (cs : List Char) :
    digitsVal (c :: cs) =
      (c.toNat - 48) * 10 ^ cs.length + digitsVal cs := by
  unfold digitsVal
  rw [List.foldl_cons, foldl_digits_acc]
  simp [digitsVal]

theorem fval_digitsVal :
    ∀ (ds : List Char), ds ≠ [] →
      fval ds = (digitsVal ds : ℚ) / 10 ^ (ds.length - 1) := by
  intro ds
  induction ds with
  | nil => intro h; exact absurd rfl h
  | cons c cs ih =>
      intro _
      by_cases hne : cs = []
      · subst hne
        simp [fval, digitsVal]
      · have hpos : 0 < cs.length := List.length_pos.mpr hne
        have hf : fval (c :: cs) =
            ((c.toNat - 48 : Nat) : ℚ) + fval cs / 10 := rfl
        rw [hf, ih hne, digitsVal_cons]
        rw [div_div, ← pow_succ]
        have hexp : cs.length - 1 + 1 = cs.length := by omega
        rw [hexp, List.length_cons]
        have hlen : (cs.length + 1) - 1 = cs.length := by omega
        rw [hlen]
        push_cast
        rw [add_div, mul_div_cancel_right₀ _
          (pow_ne_zero cs.length (by norm_num : (10:ℚ) ≠ 0))]

theorem digitsVal_replicate0 (k : Nat) (ds : List Char) :
    digitsVal (List.replicate k (digitChar 0) ++ ds) = digitsVal ds := by
  induction k with
  | zero => simp
  | succ n ih =>
      rw [List.replicate_succ, List.cons_append, digitsVal_cons]
      simpa [show ((digitChar 0).toNat - 48) = 0 from by decide] using ih

theorem natDigitsAux_length :
    ∀ (fuel n k : Nat), n < fuel → n < 10 ^ k → 1 ≤ k →
      (natDigitsAux fuel n).length ≤ k := by
  intro fuel
  induction fuel with
  | zero => intro n k h; omega
  | succ f ih =>
      intro n k hn hk hk1
      unfold natDigitsAux
      by_cases h10 : n < 10
      · rw [if_pos h10]
        simpa using hk1
      · rw [if_neg h10]
        have hk2 : 2 ≤ k := by
          by_contra hcon
          push_neg at hcon
          have hke : k = 1 := by omega
          rw [hke, pow_one] at hk
          omega
        have hpow : 10 ^ k = 10 ^ (k - 1) * 10 := by
          rw [← pow_succ]
          congr 1
          omega
        have hdivk : n / 10 < 10 ^ (k - 1) := by
          rw [hpow] at hk
          omega
        have hrec := ih (n / 10) (k - 1) (by omega) hdivk (by omega)
        rw [List.length_append]
        simp only [List.length_singleton]
        omega

theorem natChars_length_le {n k : Nat} (h : n < 10 ^ k) (hk : 1 ≤ k) :
    (natChars n).length ≤ k :=
  natDigitsAux_length (n + 1) n k (Nat.lt_succ_self n) h hk

theorem natCharsPad6_spec {fr : Nat} (h : fr < 1000000) :
    (natCharsPad6 fr).length = 6 ∧
    (∀ c ∈ natCharsPad6 fr, c.isDigit = true) ∧
    digitsVal (natCharsPad6 fr) = fr ∧ natCharsPad6 fr ≠ [] := by
  have hle : (natChars fr).length ≤ 6 := by
    refine natChars_length_le ?_ (by norm_num)
    norm_num
    exact h
  refine ⟨?_, ?_, ?_, ?_⟩
  · unfold natCharsPad6
    rw [List.length_append, List.length_replicate]
    omega
  · intro c hc
    unfold natCharsPad6 at hc
    rcases List.mem_append.mp hc with h1 | h1
    · rw [List.eq_of_mem_replicate h1]
      decide
    · exact natChars_digits fr c h1
  · unfold natCharsPad6
    rw [digitsVal_replicate0, natChars_val]
  · unfold natCharsPad6
    intro hcon
    exact natChars_ne_nil fr (List.append_eq_nil.mp hcon).2

theorem parseFracA_pad6 {fr : Nat} (h6 : fr < 1000000) {rest : List Char}
    (hrest : numSafe rest = true) :
    parseFracA (natCharsPad6 fr ++ rest) 0 (1/10) =
      ((fr : ℚ) / 1000000, rest) := by
  obtain ⟨hlen, hdig, hval, hne⟩ := natCharsPad6_spec h6
  rw [parseFracA_append hdig]
  have hstop : parseFracA rest (0 + 1/10 * fval (natCharsPad6 fr))
      (1/10 / 10 ^ (natCharsPad6 fr).length) =
      (0 + 1/10 * fval (natCharsPad6 fr), rest) := by
    cases rest with
    | nil => rfl
    | cons c cs =>
        have hc : c.isDigit = false := by
          cases hd : c.isDigit with
          | false => rfl
          | true =>
              exfalso
              simp [numSafe, hd] at hrest
        exact parseFracA_cons_not hc cs _ _
  rw [hstop]
  have hv : fval (natCharsPad6 fr) = (fr : ℚ) / 10 ^ 5 := by
    rw [fval_digitsVal _ hne, hval, hlen]
  rw [hv]
  norm_num
  ring


theorem natChars_cons (n : Nat) :
    ∃ c cs, natChars n = c :: cs ∧ c.isDigit = true := by
  cases hnc : natChars n with
  | nil => exact absurd hnc (natChars_ne_nil n)
  | cons a l =>
      exact ⟨a, l, rfl, natChars_digits n a (by
        rw [hnc]; exact List.mem_cons_self _ _)⟩

theorem natCharsPad6_cons {fr : Nat} (h6 : fr < 1000000) :
    ∃ c cs, natCharsPad6 fr = c :: cs ∧ c.isDigit = true := by
  obtain ⟨_, hdig, _, hne⟩ := natCharsPad6_spec h6
  cases hnc : natCharsPad6 fr with
  | nil => exact absurd hnc hne
  | cons a l =>
      exact ⟨a, l, rfl, hdig a (by
        rw [hnc]; exact List.mem_cons_self _ _)⟩

theorem parseNumPos_int (n : Nat) {rest : List Char}
    (hrest : numSafe rest = true) :
    parseNumPos (natChars n ++ rest) = some ((n : ℚ), rest) := by
  obtain ⟨c, cs, hcc, hcd⟩ := natChars_cons n
  have hpd : parseDigitsA (c :: (cs ++ rest)) 0 = (n, rest) := by
    rw [← List.cons_append, ← hcc]
    exact parseDigitsA_natChars n (numSafe_notDigitStart hrest)
  rw [hcc, List.cons_append]
  simp only [parseNumPos, hcd, if_true, hpd]
  cases rest with
  | nil => rfl
  | cons c2 cs2 =>
      have hne : ¬ c2 = '.' := by
        intro he
        subst he
        have hfalse : numSafe ('.' :: cs2) = false := rfl
        rw [hfalse] at hrest
        exact Bool.false_ne_true hrest
      simp [hne]

theorem parseNumPos_frac (n : Nat) {fr : Nat} (h6 : fr < 1000000)
    {rest : List Char} (hrest : numSafe rest = true) :
    parseNumPos ((natChars n ++ '.' :: natCharsPad6 fr) ++ rest) =
      some ((n : ℚ) + (fr : ℚ) / 1000000, rest) := by
  rw [List.append_assoc, List.cons_append]
  obtain ⟨c, cs, hcc, hcd⟩ := natChars_cons n
  have hnds : notDigitStart ('.' :: (natCharsPad6 fr ++ rest)) = true := rfl
  have hpd : parseDigitsA (c :: (cs ++ '.' :: (natCharsPad6 fr ++ rest))) 0
      = (n, '.' :: (natCharsPad6 fr ++ rest)) := by
    rw [← List.cons_append, ← hcc]
    exact parseDigitsA_natChars n hnds
  obtain ⟨c3, cs3, hp6, hc3⟩ := natCharsPad6_cons h6
  have hfr := parseFracA_pad6 h6 hrest
  rw [hcc, List.cons_append]
  simp only [parseNumPos, hcd, if_true, hpd]
  rw [hp6, List.cons_append]
  simp only [hc3, if_true, if_pos rfl]
  rw [← List.cons_append, ← hp6, hfr]

theorem ratChars_int {q : ℚ} (ha : 0 ≤ q) (hden : q.den = 1) :
    ratChars q = natChars ((⌊q⌋).toNat) ∧ (((⌊q⌋).toNat : ℚ) = q) := by
  have hsh : ratChars q = natChars ((⌊q⌋).toNat) := by
    simp [ratChars, abs_of_nonneg ha, hden, not_lt.mpr ha]
  have hq0 : 0 ≤ q.num := Rat.num_nonneg.mpr ha
  have hqn : (q.num : ℚ) = q := by
    conv_rhs => rw [← Rat.num_div_den q]
    rw [hden]
    norm_num
  have hfl : ⌊q⌋ = q.num := by
    conv_lhs => rw [← hqn]
    exact Int.floor_intCast q.num
  refine ⟨hsh, ?_⟩
  rw [hfl]
  have hc : ((q.num.toNat : ℚ)) = ((q.num : ℤ) : ℚ) := by
    exact_mod_cast Int.toNat_of_nonneg hq0
  rw [hc]
  exact hqn

theorem ratChars_frac {q : ℚ} (ha : 0 ≤ q) (hden : ¬ q.den = 1)
    (hdvd : q.den ∣ 1000000) :
    ∃ fr : Nat, fr < 1000000 ∧
      ratChars q = natChars ((⌊q⌋).toNat) ++ '.' :: natCharsPad6 fr ∧
      (((⌊q⌋).toNat : ℚ) + (fr : ℚ) / 1000000 = q) := by
  have hipz : (0 : ℤ) ≤ ⌊q⌋ := Int.floor_nonneg.mpr ha
  have hipQ : (((⌊q⌋).toNat : ℚ)) = ((⌊q⌋ : ℤ) : ℚ) := by
    exact_mod_cast Int.toNat_of_nonneg hipz
  have hd0 : ((q.den : ℚ)) ≠ 0 := Nat.cast_ne_zero.mpr (Rat.den_pos q).ne'
  obtain ⟨k, hk⟩ := hdvd
  have hkQ : ((q.den : ℚ)) * (k : ℚ) = 1000000 := by exact_mod_cast hk.symm
  have hnum : q * ((q.den : ℚ)) = ((q.num : ℚ)) := by
    have h3 := Rat.num_div_den q
    calc q * ((q.den : ℚ)) = (((q.num : ℚ)) / ((q.den : ℚ))) * ((q.den : ℚ)) := by
          rw [h3]
    _ = ((q.num : ℚ)) := div_mul_cancel₀ _ hd0
  have hint : ((q.num * (k : ℤ) : ℤ) : ℚ) = q * 1000000 := by
    push_cast
    rw [← hkQ, ← mul_assoc, hnum]
  have hmzval : ((q.num * (k : ℤ) - ⌊q⌋ * 1000000 : ℤ) : ℚ)
      = (q - ((⌊q⌋ : ℤ) : ℚ)) * 1000000 := by
    have h1 : ((q.num * (k : ℤ) - ⌊q⌋ * 1000000 : ℤ) : ℚ)
        = ((q.num * (k : ℤ) : ℤ) : ℚ) - ((⌊q⌋ : ℤ) : ℚ) * 1000000 := by
      push_cast
      ring
    rw [h1, hint]
    ring
  have hfr0 : (0 : ℚ) ≤ q - ((⌊q⌋ : ℤ) : ℚ) := by
    have h := Int.floor_le q
    linarith
  have hfr1 : q - ((⌊q⌋ : ℤ) : ℚ) < 1 := by
    have h := Int.lt_floor_add_one q
    linarith
  have hmz0 : (0 : ℤ) ≤ q.num * (k : ℤ) - ⌊q⌋ * 1000000 := by
    have h2 : (0 : ℚ) ≤ ((q.num * (k : ℤ) - ⌊q⌋ * 1000000 : ℤ) : ℚ) := by
      rw [hmzval]
      have := mul_nonneg hfr0 (by norm_num : (0 : ℚ) ≤ 1000000)
      linarith
    exact_mod_cast h2
  have hmzlt : q.num * (k : ℤ) - ⌊q⌋ * 1000000 < 1000000 := by
    have h2 : ((q.num * (k : ℤ) - ⌊q⌋ * 1000000 : ℤ) : ℚ) < 1000000 := by
      rw [hmzval]
      nlinarith
    exact_mod_cast h2
  refine ⟨(q.num * (k : ℤ) - ⌊q⌋ * 1000000).toNat, by omega, ?_, ?_⟩
  · have hsh : ratChars q = natChars ((⌊q⌋).toNat) ++
        '.' :: natCharsPad6 ((⌊(q - (((⌊q⌋).toNat : ℚ))) * 1000000⌋).toNat) := by
      simp [ratChars, abs_of_nonneg ha, hden, not_lt.mpr ha]
    rw [hsh]
    have harg : ⌊(q - (((⌊q⌋).toNat : ℚ))) * 1000000⌋
        = q.num * (k : ℤ) - ⌊q⌋ * 1000000 := by
      rw [hipQ, ← hmzval, Int.floor_intCast]
    rw [harg]
  · rw [hipQ]
    have hcast : (((q.num * (k : ℤ) - ⌊q⌋ * 1000000).toNat : ℚ))
        = ((q.num * (k : ℤ) - ⌊q⌋ * 1000000 : ℤ) : ℚ) := by
      exact_mod_cast Int.toNat_of_nonneg hmz0
    rw [hcast, hmzval]
    ring

theorem ratChars_neg {q : ℚ} (h : q < 0) : ratChars q = '-' :: ratChars (-q) := by
  have h2 : (0 : ℚ) ≤ -q := by linarith
  by_cases hd : q.den = 1 <;>
    simp [ratChars, h, abs_of_neg h, abs_of_nonneg h2, not_lt.mpr h2, hd]

theorem parseNum_ratChars {q : ℚ} (hq : decimalDen q = true)
    {rest : List Char} (hrest : numSafe rest = true) :
    parseNum (ratChars q ++ rest) = some (q, rest) := by
  have hdvd : q.den ∣ 1000000 := of_decide_eq_true hq
  have main : ∀ a : ℚ, 0 ≤ a → a.den ∣ 1000000 →
      parseNumPos (ratChars a ++ rest) = some (a, rest) := by
    intro a haa hdd
    by_cases hd1 : a.den = 1
    · obtain ⟨hsh, hval⟩ := ratChars_int haa hd1
      rw [hsh, parseNumPos_int _ hrest, hval]
    · obtain ⟨fr, h6, hsh, hval⟩ := ratChars_frac haa hd1 hdd
      rw [hsh, parseNumPos_frac _ h6 hrest, hval]
  by_cases hneg : q < 0
  · have h2 : (0 : ℚ) ≤ -q := by linarith
    have hnd : (-q).den ∣ 1000000 := by
      rwa [Rat.neg_den]
    rw [ratChars_neg hneg, List.cons_append]
    have hm := main (-q) h2 hnd
    simp only [parseNum, if_pos rfl, hm, Option.map_some]
    simp
  · push_neg at hneg
    have hm := main q hneg hdvd
    obtain ⟨c, cs, hcc, hcd⟩ : ∃ c cs, ratChars q = c :: cs ∧ c.isDigit = true := by
      by_cases hd1 : q.den = 1
      · obtain ⟨hsh, _⟩ := ratChars_int hneg hd1
        obtain ⟨c, cs, h1, h2⟩ := natChars_cons ((⌊q⌋).toNat)
        exact ⟨c, cs, by rw [hsh, h1], h2⟩
      · obtain ⟨fr, h6, hsh, _⟩ := ratChars_frac hneg hd1 hdvd
        obtain ⟨c, cs, h1, h2⟩ := natChars_cons ((⌊q⌋).toNat)
        refine ⟨c, cs ++ '.' :: natCharsPad6 fr, ?_, h2⟩
        rw [hsh, h1]
        rfl
    have hcm : ¬ (c = '-') := by
      intro he
      subst he
      exact absurd hcd (by decide)
    rw [hcc, List.cons_append]
    simp only [parseNum, if_neg hcm]
    rw [← List.cons_append, ← hcc]
    exact hm


theorem parseStrBody_foldr (cs : List Char) (rest : List Char) :
    parseStrBody ((cs.foldr (fun c acc => escChar c ++ acc) ['"']) ++ rest)
      = some (cs, rest) := by
  induction cs with
  | nil =>
      simp only [List.foldr_nil, List.cons_append, List.nil_append]
      rw [parseStrBody.eq_def]
      simp
  | cons c cs ih =>
      simp only [List.foldr_cons]
      by_cases hc : c = '"' ∨ c = '\\'
      · have hesc : escChar c = ['\\', c] := by
          unfold escChar
          rcases hc with h | h <;> simp [h]
        have hcc : (c = '"' || c = '\\') = true := by
          rcases hc with h | h <;> simp [h]
        rw [hesc]
        simp only [List.cons_append, List.append_assoc, List.nil_append]
        rw [parseStrBody.eq_def]
        simp only [if_neg (by decide : ¬ ('\\' : Char) = '"'),
          if_pos (rfl : ('\\' : Char) = '\\'), hcc, if_true]
        rw [ih]
        rfl
      · push_neg at hc
        obtain ⟨h1, h2⟩ := hc
        have hesc : escChar c = [c] := by
          unfold escChar
          simp [h1, h2]
        rw [hesc]
        simp only [List.cons_append, List.append_assoc, List.nil_append]
        rw [parseStrBody.eq_def]
        simp only [if_neg h1, if_neg h2]
        rw [ih]
        rfl

theorem string_mk_data (s : String) : String.mk s.data = s := rfl

theorem parseStrBody_strChars (k : String) (rest : List Char) :
    parseStrBody ((strChars k).tail ++ rest) = some (k.data, rest) :=
  parseStrBody_foldr k.data rest

theorem digit_not_special {c : Char} (h : c.isDigit = true) :
    isWsChar c = false ∧ ¬ c = ']' ∧ ¬ c = rbrace := by
  refine ⟨?_, ?_, ?_⟩
  · cases hw : isWsChar c with
    | false => rfl
    | true =>
        exfalso
        simp [isWsChar] at hw
        rcases hw with ((h1 | h1) | h1) | h1 <;> subst h1 <;>
          exact absurd h (by decide)
  · intro he
    subst he
    exact absurd h (by decide)
  · intro he
    subst he
    exact absurd h (by decide)

theorem ratChars_head (q : ℚ) :
    ∃ c cs, ratChars q = c :: cs ∧ (c.isDigit = true ∨ c = '-') := by
  by_cases hq : q < 0
  · exact ⟨'-', _, ratChars_neg hq, Or.inr rfl⟩
  · have ha : 0 ≤ q := not_lt.mp hq
    obtain ⟨c, cs, hcc, hcd⟩ := natChars_cons ((⌊q⌋).toNat)
    by_cases hd : q.den = 1
    · refine ⟨c, cs, ?_, Or.inl hcd⟩
      have hr : ratChars q = natChars ((⌊q⌋).toNat) := by
        simp [ratChars, abs_of_nonneg ha, hd, not_lt.mpr ha]
      rw [hr, hcc]
    · refine ⟨c, cs ++ '.' :: natCharsPad6
        ((⌊(q - (((⌊q⌋).toNat : ℚ))) * 1000000⌋).toNat), ?_, Or.inl hcd⟩
      have hr : ratChars q = natChars ((⌊q⌋).toNat) ++ '.' :: natCharsPad6
          ((⌊(q - (((⌊q⌋).toNat : ℚ))) * 1000000⌋).toNat) := by
        simp [ratChars, abs_of_nonneg ha, hd, not_lt.mpr ha]
      rw [hr, hcc]
      rfl

theorem renderV_head (d : Nat) (v : JVal) :
    ∃ c cs, renderV d v = c :: cs ∧ isWsChar c = false ∧
      ¬ c = ']' ∧ ¬ c = rbrace := by
  cases v with
  | null => exact ⟨'n', _, rfl, by decide, by decide, by decide⟩
  | jbool b =>
      cases b with
      | true =>
          refine ⟨'t', _, rfl, ?_, ?_, ?_⟩ <;> decide
      | false =>
          refine ⟨'f', _, rfl, ?_, ?_, ?_⟩ <;> decide
  | jnum q =>
      obtain ⟨c, cs, hcc, hd⟩ := ratChars_head q
      rcases hd with hd | hd
      · obtain ⟨hw, h1, h2⟩ := digit_not_special hd
        exact ⟨c, cs, hcc, hw, h1, h2⟩
      · subst hd
        exact ⟨'-', cs, hcc, by decide, by decide, by decide⟩
  | jstr s => exact ⟨'"', _, rfl, by decide, by decide, by decide⟩
  | jarr a =>
      cases a with
      | nil => exact ⟨'[', _, rfl, by decide, by decide, by decide⟩
      | cons h t => exact ⟨'[', _, rfl, by decide, by decide, by decide⟩
  | jobj o =>
      cases o with
      | nil => exact ⟨lbrace, _, rfl, by decide, by decide, by decide⟩
      | cons k v t => exact ⟨lbrace, _, rfl, by decide, by decide, by decide⟩

theorem needV_pos (v : JVal) : 1 ≤ needV v := by
  cases v <;> simp [needV]

theorem needA_pos {a : JArr} (h : ¬ a = .nil) : 1 ≤ needA a := by
  cases a with
  | nil => exact absurd rfl h
  | cons x t => simp [needA]

theorem needO_pos {o : JObj} (h : ¬ o = .nil) : 1 ≤ needO o := by
  cases o with
  | nil => exact absurd rfl h
  | cons k v t => simp [needO]


theorem parseV_render_null (f d : Nat) (rest : List Char) :
    parseV (f + 1) (renderV d .null ++ rest) = some (.null, rest) := by
  show parseV (f + 1) ('n' :: 'u' :: 'l' :: 'l' :: rest) = some (.null, rest)
  rw [parseV.eq_def]
  dsimp only
  rw [skipWs_cons_not (by decide)]
  simp +decide

theorem parseV_render_true (f d : Nat) (rest : List Char) :
    parseV (f + 1) (renderV d (.jbool true) ++ rest) = some (.jbool true, rest) := by
  show parseV (f + 1) ('t' :: 'r' :: 'u' :: 'e' :: rest) = some (.jbool true, rest)
  rw [parseV.eq_def]
  dsimp only
  rw [skipWs_cons_not (by decide)]
  simp +decide

theorem parseV_render_false (f d : Nat) (rest : List Char) :
    parseV (f + 1) (renderV d (.jbool false) ++ rest) = some (.jbool false, rest) := by
  show parseV (f + 1) ('f' :: 'a' :: 'l' :: 's' :: 'e' :: rest)
      = some (.jbool false, rest)
  rw [parseV.eq_def]
  dsimp only
  rw [skipWs_cons_not (by decide)]
  simp +decide

theorem parseV_render_num (f d : Nat) {q : ℚ} (hq : decimalDen q = true)
    {rest : List Char} (hrest : numSafe rest = true) :
    parseV (f + 1) (renderV d (.jnum q) ++ rest) = some (.jnum q, rest) := by
  obtain ⟨c, cs, hcc, hd⟩ := ratChars_head q
  have hdig : (c.isDigit || c = '-') = true := by
    rcases hd with h | h <;> simp [h]
  have hws : isWsChar c = false := by
    rcases hd with h | h
    · exact (digit_not_special h).1
    · subst h
      decide
  have hpn := parseNum_ratChars hq hrest
  show parseV (f + 1) (ratChars q ++ rest) = some (.jnum q, rest)
  rw [hcc] at hpn ⊢
  rw [List.cons_append] at hpn ⊢
  rw [parseV.eq_def]
  dsimp only
  rw [skipWs_cons_not hws]
  simp only [hdig, if_true, eq_self_iff_true]
  rw [hpn]
  rfl

theorem parseV_render_str (f d : Nat) (s : String) (rest : List Char) :
    parseV (f + 1) (renderV d (.jstr s) ++ rest) = some (.jstr s, rest) := by
  show parseV (f + 1) (strChars s ++ rest) = some (.jstr s, rest)
  unfold strChars
  rw [List.cons_append]
  rw [parseV.eq_def]
  dsimp only
  rw [skipWs_cons_not (by decide)]
  simp +decide [parseStrBody_foldr, string_mk_data]

theorem parseV_render_arrnil (f d : Nat) (rest : List Char) :
    parseV (f + 1) (renderV d (.jarr .nil) ++ rest) = some (.jarr .nil, rest) := by
  show parseV (f + 1) ('[' :: ']' :: rest) = some (.jarr .nil, rest)
  rw [parseV.eq_def]
  dsimp only
  rw [skipWs_cons_not (by decide)]
  dsimp only
  rw [skipWs_cons_not (by decide)]
  simp +decide

theorem parseV_render_objnil (f d : Nat) (rest : List Char) :
    parseV (f + 1) (renderV d (.jobj .nil) ++ rest) = some (.jobj .nil, rest) := by
  show parseV (f + 1) (lbrace :: rbrace :: rest) = some (.jobj .nil, rest)
  rw [parseV.eq_def]
  dsimp only
  rw [skipWs_cons_not (by decide)]
  dsimp only
  rw [skipWs_cons_not (by decide)]
  simp +decide


theorem renderItemsA_cons (d : Nat) (h : JVal) (t : JArr) :
    renderItemsA d (JArr.cons h t)
      = nlIndent d ++ (renderV d h ++ arrTail d t) := by
  cases t with
  | nil =>
      rw [renderItemsA.eq_def]
      dsimp only
      simp [arrTail, List.append_assoc]
  | cons h2 t2 =>
      rw [renderItemsA.eq_def]
      dsimp only
      simp [arrTail, List.append_assoc]

theorem renderItemsO_cons (d : Nat) (k : String) (v : JVal) (t : JObj) :
    renderItemsO d (JObj.cons k v t)
      = nlIndent d ++ ('"' ::
          ((k.data.foldr (fun c acc => escChar c ++ acc) ['"']) ++
            (':' :: ' ' :: (renderV d v ++ objTail d t)))) := by
  cases t with
  | nil =>
      rw [renderItemsO.eq_def]
      dsimp only
      simp [objTail, strChars, List.append_assoc]
  | cons k2 v2 t2 =>
      rw [renderItemsO.eq_def]
      dsimp only
      simp [objTail, strChars, List.append_assoc]

theorem numSafe_tailA (d d2 : Nat) (t : JArr) (l : List Char) :
    numSafe (arrTail d t ++ (nlIndent d2 ++ l)) = true := by
  cases t <;> rfl

theorem numSafe_tailO (d d2 : Nat) (t : JObj) (l : List Char) :
    numSafe (objTail d t ++ (nlIndent d2 ++ l)) = true := by
  cases t <;> rfl


theorem RT_all (fuel : Nat) :
    (∀ (d : Nat) (v : JVal) (rest : List Char), needV v ≤ fuel →
        goodV v = true → numSafe rest = true →
        parseV fuel (renderV d v ++ rest) = some (v, rest)) ∧
    (∀ (d : Nat) (a : JArr) (rest : List Char), ¬ a = .nil → needA a ≤ fuel →
        goodA a = true →
        parseItemsA fuel
          (renderItemsA (d + 1) a ++ (nlIndent d ++ ']' :: rest))
          = some (a, rest)) ∧
    (∀ (d : Nat) (o : JObj) (rest : List Char), ¬ o = .nil → needO o ≤ fuel →
        goodO o = true →
        parseItemsO fuel
          (renderItemsO (d + 1) o ++ (nlIndent d ++ rbrace :: rest))
          = some (o, rest)) := by
  induction fuel with
  | zero =>
      refine ⟨?_, ?_, ?_⟩
      · intro d v rest hf _ _
        exact absurd hf (by have := needV_pos v; omega)
      · intro d a rest hne hf _
        exact absurd hf (by have := needA_pos hne; omega)
      · intro d o rest hne hf _
        exact absurd hf (by have := needO_pos hne; omega)
  | succ f ih =>
      obtain ⟨ihV, ihA, ihO⟩ := ih
      refine ⟨?_, ?_, ?_⟩
      · intro d v rest hf hg hrest
        cases v with
        | null => exact parseV_render_null f d rest
        | jbool b =>
            cases b with
            | true => exact parseV_render_true f d rest
            | false => exact parseV_render_false f d rest
        | jnum q => exact parseV_render_num f d (by simpa [goodV] using hg) hrest
        | jstr s => exact parseV_render_str f d s rest
        | jarr a =>
            cases a with
            | nil => exact parseV_render_arrnil f d rest
            | cons h t =>
                have hfA : needA (JArr.cons h t) ≤ f := by
                  simp only [needV] at hf
                  omega
                have hgA : goodA (JArr.cons h t) = true := by
                  simpa [goodV] using hg
                have hpa := ihA d (JArr.cons h t) rest (by simp) hfA hgA
                obtain ⟨c0, cs0, hc0, hc0ws, hc0br, hc0rb⟩ :=
                  renderV_head (d + 1) h
                have hL : renderV d (JVal.jarr (JArr.cons h t)) ++ rest
                    = '[' :: (renderItemsA (d + 1) (JArr.cons h t) ++
                        (nlIndent d ++ ']' :: rest)) := by
                  rw [renderV.eq_def]
                  dsimp only
                  simp [List.append_assoc]
                have hskip : skipWs (renderItemsA (d + 1) (JArr.cons h t) ++
                    (nlIndent d ++ ']' :: rest))
                    = c0 :: (cs0 ++ (arrTail (d + 1) t ++
                        (nlIndent d ++ ']' :: rest))) := by
                  rw [renderItemsA_cons, List.append_assoc, skipWs_nlIndent,
                    List.append_assoc, hc0, List.cons_append]
                  exact skipWs_cons_not hc0ws _
                rw [hL, parseV.eq_def]
                dsimp only
                rw [skipWs_cons_not (by decide)]
                dsimp only
                rw [hskip]
                simp +decide [if_neg hc0br, hpa]
        | jobj o =>
            cases o with
            | nil => exact parseV_render_objnil f d rest
            | cons k v t =>
                have hfO : needO (JObj.cons k v t) ≤ f := by
                  simp only [needV] at hf
                  omega
                have hgO : goodO (JObj.cons k v t) = true := by
                  simpa [goodV] using hg
                have hpo := ihO d (JObj.cons k v t) rest (by simp) hfO hgO
                have hL : renderV d (JVal.jobj (JObj.cons k v t)) ++ rest
                    = lbrace :: (renderItemsO (d + 1) (JObj.cons k v t) ++
                        (nlIndent d ++ rbrace :: rest)) := by
                  rw [renderV.eq_def]
                  dsimp only
                  simp [List.append_assoc]
                have hskip : skipWs (renderItemsO (d + 1) (JObj.cons k v t) ++
                    (nlIndent d ++ rbrace :: rest))
                    = '"' :: ((k.data.foldr (fun c acc => escChar c ++ acc) ['"']) ++
                        ((':' :: ' ' :: (renderV (d + 1) v ++ objTail (d + 1) t)) ++
                          (nlIndent d ++ rbrace :: rest))) := by
                  rw [renderItemsO_cons, List.append_assoc, skipWs_nlIndent,
                    List.cons_append, List.append_assoc]
                  exact skipWs_cons_not (by decide) _
                rw [hL, parseV.eq_def]
                dsimp only
                rw [skipWs_cons_not (by decide)]
                dsimp only
                rw [hskip]
                simp +decide [if_neg (show ¬ ('"' : Char) = rbrace from by decide),
                  hpo]
      · intro d a rest hne hf hg
        cases a with
        | nil => exact absurd rfl hne
        | cons h t =>
            have hfh : needV h ≤ f := by
              simp only [needA] at hf
              omega
            have hft : needA t ≤ f := by
              simp only [needA] at hf
              omega
            have hgp : goodV h = true ∧ goodA t = true := by
              simpa [goodA] using hg
            have hns : numSafe (arrTail (d + 1) t ++
                (nlIndent d ++ ']' :: rest)) = true :=
              numSafe_tailA (d + 1) d t (']' :: rest)
            have hpv : parseV f (renderItemsA (d + 1) (JArr.cons h t) ++
                (nlIndent d ++ ']' :: rest))
                = some (h, arrTail (d + 1) t ++ (nlIndent d ++ ']' :: rest)) := by
              rw [renderItemsA_cons, List.append_assoc,
                parseV_ws_append f (nlIndent_ws (d + 1)), List.append_assoc]
              exact ihV (d + 1) h _ hfh hgp.1 hns
            rw [parseItemsA.eq_def]
            dsimp only
            rw [hpv]
            dsimp only [Option.bind]
            cases t with
            | nil =>
                dsimp only [arrTail]
                rw [List.nil_append, skipWs_nlIndent,
                  skipWs_cons_not (by decide)]
                simp +decide
            | cons h2 t2 =>
                dsimp only [arrTail]
                rw [List.cons_append, skipWs_cons_not (by decide)]
                have hrec := ihA d (JArr.cons h2 t2) rest (by simp) hft hgp.2
                simp +decide [hrec]
      · intro d o rest hne hf hg
        cases o with
        | nil => exact absurd rfl hne
        | cons k v t =>
            have hfv : needV v ≤ f := by
              simp only [needO] at hf
              omega
            have hft : needO t ≤ f := by
              simp only [needO] at hf
              omega
            have hgp : (safeStr k = true ∧ goodV v = true) ∧ goodO t = true := by
              simpa [goodO] using hg
            have hns : numSafe (objTail (d + 1) t ++
                (nlIndent d ++ rbrace :: rest)) = true :=
              numSafe_tailO (d + 1) d t (rbrace :: rest)
            have hskip : skipWs (renderItemsO (d + 1) (JObj.cons k v t) ++
                (nlIndent d ++ rbrace :: rest))
                = '"' :: ((k.data.foldr (fun c acc => escChar c ++ acc) ['"']) ++
                    ((':' :: ' ' :: (renderV (d + 1) v ++ objTail (d + 1) t)) ++
                      (nlIndent d ++ rbrace :: rest))) := by
              rw [renderItemsO_cons, List.append_assoc, skipWs_nlIndent,
                List.cons_append, List.append_assoc]
              exact skipWs_cons_not (by decide) _
            have hpv : parseV f (' ' :: ((renderV (d + 1) v ++ objTail (d + 1) t) ++
                (nlIndent d ++ rbrace :: rest)))
                = some (v, objTail (d + 1) t ++ (nlIndent d ++ rbrace :: rest)) := by
              rw [show (' ' :: ((renderV (d + 1) v ++ objTail (d + 1) t) ++
                  (nlIndent d ++ rbrace :: rest)))
                  = [' '] ++ ((renderV (d + 1) v ++ objTail (d + 1) t) ++
                    (nlIndent d ++ rbrace :: rest)) from rfl]
              rw [parseV_ws_append f (by decide), List.append_assoc]
              exact ihV (d + 1) v _ hfv hgp.1.2 hns
            rw [parseItemsO.eq_def]
            dsimp only
            rw [hskip]
            dsimp only
            rw [if_pos rfl]
            rw [parseStrBody_foldr]
            dsimp only [Option.bind]
            rw [List.cons_append, List.cons_append,
              skipWs_cons_not (by decide)]
            dsimp only
            rw [if_pos rfl, hpv]
            dsimp only [Option.bind]
            cases t with
            | nil =>
                dsimp only [objTail]
                rw [List.nil_append, skipWs_nlIndent,
                  skipWs_cons_not (by decide)]
                simp +decide [string_mk_data]
            | cons k2 v2 t2 =>
                dsimp only [objTail]
                rw [List.cons_append, skipWs_cons_not (by decide)]
                have hrec := ihO d (JObj.cons k2 v2 t2) rest (by simp) hft hgp.2
                simp +decide [hrec, string_mk_data]


theorem nlIndent_length (d : Nat) : (nlIndent d).length = 2 * d + 1 := by
  simp [nlIndent]

mutual

theorem needV_le_len (d : Nat) (v : JVal) : needV v ≤ (renderV d v).length := by
  cases v with
  | null =>
      rw [renderV.eq_def]
      dsimp only
      simp only [needV, List.length_cons, List.length_nil]
      omega
  | jbool b =>
      cases b with
      | true =>
          rw [renderV.eq_def]
          dsimp only
          simp only [needV, List.length_cons, List.length_nil]
          omega
      | false =>
          rw [renderV.eq_def]
          dsimp only
          simp only [needV, List.length_cons, List.length_nil]
          omega
  | jnum q =>
      obtain ⟨c, cs, hcc, _⟩ := ratChars_head q
      have hr : renderV d (JVal.jnum q) = ratChars q := by
        rw [renderV.eq_def]
      rw [hr, hcc]
      simp only [needV, List.length_cons]
      omega
  | jstr s =>
      have hr : renderV d (JVal.jstr s) = strChars s := by
        rw [renderV.eq_def]
      rw [hr]
      unfold strChars
      simp only [needV, List.length_cons]
      omega
  | jarr a =>
      cases a with
      | nil =>
          rw [renderV.eq_def]
          dsimp only
          simp only [needV, needA, List.length_cons, List.length_nil]
          omega
      | cons h t =>
          have h1 := needA_le_len (d + 1) (JArr.cons h t)
          have hr : renderV d (JVal.jarr (JArr.cons h t))
              = '[' :: (renderItemsA (d + 1) (JArr.cons h t) ++
                  nlIndent d ++ [']']) := by
            rw [renderV.eq_def]
          rw [hr]
          simp only [needV, List.length_cons, List.length_append,
            List.length_nil]
          omega
  | jobj o =>
      cases o with
      | nil =>
          rw [renderV.eq_def]
          dsimp only
          simp only [needV, needO, List.length_cons, List.length_nil]
          omega
      | cons k v t =>
          have h1 := needO_le_len (d + 1) (JObj.cons k v t)
          have hr : renderV d (JVal.jobj (JObj.cons k v t))
              = lbrace :: (renderItemsO (d + 1) (JObj.cons k v t) ++
                  nlIndent d ++ [rbrace]) := by
            rw [renderV.eq_def]
          rw [hr]
          simp only [needV, List.length_cons, List.length_append,
            List.length_nil]
          omega

theorem needA_le_len (d : Nat) (a : JArr) :
    needA a ≤ (renderItemsA d a).length := by
  cases a with
  | nil => simp [needA]
  | cons h t =>
      have h1 := needV_le_len d h
      have h2 : needA t ≤ (arrTail d t).length := by
        cases t with
        | nil => simp [needA, arrTail]
        | cons h2 t2 =>
            have h3 := needA_le_len d (JArr.cons h2 t2)
            simp only [arrTail, List.length_cons]
            omega
      rw [renderItemsA_cons]
      simp only [needA, List.length_append, nlIndent_length]
      omega

theorem needO_le_len (d : Nat) (o : JObj) :
    needO o ≤ (renderItemsO d o).length := by
  cases o with
  | nil => simp [needO]
  | cons k v t =>
      have h1 := needV_le_len d v
      have h2 : needO t ≤ (objTail d t).length := by
        cases t with
        | nil => simp [needO, objTail]
        | cons k2 v2 t2 =>
            have h3 := needO_le_len d (JObj.cons k2 v2 t2)
            simp only [objTail, List.length_cons]
            omega
      rw [renderItemsO_cons]
      simp only [needO, List.length_append, List.length_cons, nlIndent_length]
      omega

end

theorem jsonLoads_jsonDumps {v : JVal} (hg : goodV v = true) :
    jsonLoads (jsonDumps v) = some v := by
  have hlen := needV_le_len 0 v
  have hrt := (RT_all ((renderV 0 v).length + 1)).1 0 v [] (by omega) hg rfl
  rw [List.append_nil] at hrt
  unfold jsonLoads jsonDumps
  have hdata : (String.mk (renderV 0 v)).data = renderV 0 v := rfl
  rw [hdata, hrt]
  rfl


/-- C9: serialization roundtrip. For a DriftReport whose contents the JSON
model covers (numbers with denominator dividing 10^6, printable strings —
true of every report the engine emits), parsing the string produced by
DriftReport.to_json recovers exactly the DriftReport.to_dict mapping, and
that mapping's drift_detected and overall_severity entries carry the
report's drift_detected and overall_severity values. -/
theorem drift_c9_json_roundtrip (r : DriftReport)
    (hg : goodV r.to_dict = true) :
    ∃ kvs : JObj, r.to_dict = JVal.jobj kvs ∧
      jsonLoads r.to_json = some (JVal.jobj kvs) ∧
      JObj.find "drift_detected" kvs = some (JVal.jbool r.drift_detected) ∧
      JObj.find "overall_severity" kvs
        = some (JVal.jstr r.overall_severity) := by
  refine ⟨_, rfl, ?_, ?_, ?_⟩
  · exact jsonLoads_jsonDumps hg
  · rfl
  · rfl

/-- Closed witness: the roundtrip theorem evaluated at a freshly
initialised report. -/
theorem drift_c9_json_roundtrip_witness :
    goodV (DriftReport.init "r" "c" 1 2 "ts").to_dict = true ∧
    (∃ kvs : JObj,
      (DriftReport.init "r" "c" 1 2 "ts").to_dict = JVal.jobj kvs ∧
      jsonLoads (DriftReport.init "r" "c" 1 2 "ts").to_json
        = some (JVal.jobj kvs) ∧
      JObj.find "drift_detected" kvs
        = some (JVal.jbool (DriftReport.init "r" "c" 1 2 "ts").drift_detected) ∧
      JObj.find "overall_severity" kvs
        = some (JVal.jstr (DriftReport.init "r" "c" 1 2 "ts").overall_severity)) :=
  ⟨by with_unfolding_all decide,
    drift_c9_json_roundtrip (DriftReport.init "r" "c" 1 2 "ts")
      (by with_unfolding_all decide)⟩

end DriftDetection
